import Mathlib

/-!
Verification development for the tg-mcp repository: a shallow embedding of
the rate-limit kernel (token bucket, circuit breaker, retry wrapper), the
write-request classifier, the action authorization pipeline (payload hashing,
approval codes, idempotency, the send-message tool) and the add-member batch
runner, together with theorems settling the specification claims.
-/

namespace TgMcp

/-- Single quote character, built from its code point so that message strings
can embed it. -/
def sq : String := String.singleton (Char.ofNat 39)

/-! ## JSON values and canonical serialization (mcp_actions_policy.hash_payload)

Models `json.dumps(payload, sort_keys=True, ensure_ascii=False,
separators=(",", ":"))` followed by `hashlib.sha256(...).hexdigest()`. -/

/-- JSON value as produced for action payloads. -/
inductive J where
  | null : J
  | bool (b : Bool) : J
  | int (n : Int) : J
  | str (s : String) : J
  | arr (xs : List J) : J
  | obj (fields : List (String × J)) : J

/-- Hex digit character for a nibble, lowercase as in Python hexdigest. -/
def hexDigit (n : Nat) : Char :=
  if n < 10 then Char.ofNat (48 + n) else Char.ofNat (87 + n)

/-- Four lowercase hex digits of a value below 2^16 (the Python json
\u escape form for control characters). -/
def toHex4 (n : Nat) : List Char :=
  (List.range 4).map (fun i => hexDigit ((n >>> (12 - 4 * i)) &&& 15))

/-- Escape of one character inside a JSON string, mirroring the CPython json
encoder with ensure_ascii=False: quote and backslash are escaped, the five
short escapes are used for their control characters, all other control
characters below 32 become a \u escape, everything else is emitted raw. -/
def escChar (c : Char) : List Char :=
  if c = Char.ofNat 34 then [Char.ofNat 92, Char.ofNat 34]
  else if c = Char.ofNat 92 then [Char.ofNat 92, Char.ofNat 92]
  else if c = Char.ofNat 8 then [Char.ofNat 92, Char.ofNat 98]
  else if c = Char.ofNat 9 then [Char.ofNat 92, Char.ofNat 116]
  else if c = Char.ofNat 10 then [Char.ofNat 92, Char.ofNat 110]
  else if c = Char.ofNat 12 then [Char.ofNat 92, Char.ofNat 102]
  else if c = Char.ofNat 13 then [Char.ofNat 92, Char.ofNat 114]
  else if c.toNat < 32 then Char.ofNat 92 :: Char.ofNat 117 :: toHex4 c.toNat
  else [c]

/-- Serialized JSON string literal with surrounding quotes. -/
def serStr (s : String) : String :=
  String.singleton (Char.ofNat 34) ++ String.mk (s.data.flatMap escChar)
    ++ String.singleton (Char.ofNat 34)

/-- Join a list of already serialized items with the tight "," separator. -/
def commaJoin : List String → String
  | [] => ""
  | [x] => x
  | x :: y :: xs => x ++ "," ++ commaJoin (y :: xs)

/-- Ordering of object fields by raw key, as `sort_keys=True` sorts by the
Python string order (code-point lexicographic). -/
def keyLe {β : Type} (a b : String × β) : Prop := a.1 ≤ b.1

instance {β : Type} : DecidableRel (@keyLe β) := fun a b =>
  inferInstanceAs (Decidable (a.1 ≤ b.1))

instance {β : Type} : IsTotal (String × β) keyLe :=
  ⟨fun a b => le_total a.1 b.1⟩

instance {β : Type} : IsTrans (String × β) keyLe :=
  ⟨fun _ _ _ h₁ h₂ => le_trans h₁ h₂⟩

/-- Strict key ordering, used to identify sorted field lists with no
duplicate keys. -/
def keyLt {β : Type} (a b : String × β) : Prop := a.1 < b.1

instance {β : Type} : IsAntisymm (String × β) keyLt :=
  ⟨fun _ _ h₁ h₂ => absurd h₂ (lt_asymm h₁)⟩

/-- Sort an association list by key (stable insertion sort; ties cannot
matter for the payloads considered, whose keys are distinct). -/
def sortByKey {β : Type} (l : List (String × β)) : List (String × β) :=
  List.insertionSort keyLe l

mutual

/-- Canonical JSON serialization: `json.dumps` with sorted keys,
`ensure_ascii=False` and separators `(",", ":")`. -/
def ser : J → String
  | .null => "null"
  | .bool true => "true"
  | .bool false => "false"
  | .int n => toString n
  | .str s => serStr s
  | .arr xs => "[" ++ commaJoin (serList xs) ++ "]"
  | .obj fs => "\x7b" ++ commaJoin ((sortByKey (serFields fs)).map Prod.snd) ++ "\x7d"

/-- Serialize each array element. -/
def serList : List J → List String
  | [] => []
  | x :: xs => ser x :: serList xs

/-- Serialize each object field to (raw key, serialized `"key":value` text);
the raw key is kept so fields can be ordered exactly as Python sorts them. -/
def serFields : List (String × J) → List (String × String)
  | [] => []
  | (k, v) :: fs => (k, serStr k ++ ":" ++ ser v) :: serFields fs

end

/-! ## UTF-8 encoding of the serialized text (the `.encode("utf-8")` step) -/

/-- UTF-8 bytes of one character. -/
def utf8Char (c : Char) : List Nat :=
  let u := c.toNat
  if u < 128 then [u]
  else if u < 2048 then [192 ||| (u >>> 6), 128 ||| (u &&& 63)]
  else if u < 65536 then
    [224 ||| (u >>> 12), 128 ||| ((u >>> 6) &&& 63), 128 ||| (u &&& 63)]
  else
    [240 ||| (u >>> 18), 128 ||| ((u >>> 12) &&& 63),
     128 ||| ((u >>> 6) &&& 63), 128 ||| (u &&& 63)]

/-- UTF-8 bytes of a string. -/
def utf8 (s : String) : List Nat := s.data.flatMap utf8Char

/-! ## SHA-256 over a byte list (hashlib.sha256), 32-bit words as Nat mod 2^32 -/

/-- Truncation to a 32-bit word. -/
def w32 (n : Nat) : Nat := n % 4294967296

/-- Right rotation of a 32-bit word. -/
def rotr (n x : Nat) : Nat := w32 ((x >>> n) ||| (x <<< (32 - n)))

/-- SHA-256 Ch function. -/
def shaCh (x y z : Nat) : Nat := (x &&& y) ^^^ ((x ^^^ 4294967295) &&& z)

/-- SHA-256 Maj function. -/
def shaMaj (x y z : Nat) : Nat := (x &&& y) ^^^ (x &&& z) ^^^ (y &&& z)

/-- SHA-256 big sigma 0. -/
def bsig0 (x : Nat) : Nat := rotr 2 x ^^^ rotr 13 x ^^^ rotr 22 x

/-- SHA-256 big sigma 1. -/
def bsig1 (x : Nat) : Nat := rotr 6 x ^^^ rotr 11 x ^^^ rotr 25 x

/-- SHA-256 small sigma 0. -/
def ssig0 (x : Nat) : Nat := rotr 7 x ^^^ rotr 18 x ^^^ (x >>> 3)

/-- SHA-256 small sigma 1. -/
def ssig1 (x : Nat) : Nat := rotr 17 x ^^^ rotr 19 x ^^^ (x >>> 10)

/-- SHA-256 round constants. -/
def shaK : List Nat :=
  [1116352408, 1899447441, 3049323471, 3921009573, 961987163, 1508970993,
   2453635748, 2870763221, 3624381080, 310598401, 607225278, 1426881987,
   1925078388, 2162078206, 2614888103, 3248222580, 3835390401, 4022224774,
   264347078, 604807628, 770255983, 1249150122, 1555081692, 1996064986,
   2554220882, 2821834349, 2952996808, 3210313671, 3336571891, 3584528711,
   113926993, 338241895, 666307205, 773529912, 1294757372, 1396182291,
   1695183700, 1986661051, 2177026350, 2456956037, 2730485921, 2820302411,
   3259730800, 3345764771, 3516065817, 3600352804, 4094571909, 275423344,
   430227734, 506948616, 659060556, 883997877, 958139571, 1322822218,
   1537002063, 1747873779, 1955562222, 2024104815, 2227730452, 2361852424,
   2428436474, 2756734187, 3204031479, 3329325298]

/-- Eight 32-bit hash state words. -/
structure SHAState where
  h0 : Nat
  h1 : Nat
  h2 : Nat
  h3 : Nat
  h4 : Nat
  h5 : Nat
  h6 : Nat
  h7 : Nat
deriving Repr

/-- Initial SHA-256 state. -/
def shaInit : SHAState :=
  ⟨1779033703, 3144134277, 1013904242, 2773480762,
   1359893119, 2600822924, 528734635, 1541459225⟩

/-- Working variables of the compression loop. -/
structure RoundState where
  a : Nat
  b : Nat
  c : Nat
  d : Nat
  e : Nat
  f : Nat
  g : Nat
  h : Nat

/-- One compression round on (round constant, schedule word). -/
def shaRound (st : RoundState) (kw : Nat × Nat) : RoundState :=
  let t1 := w32 (st.h + bsig1 st.e + shaCh st.e st.f st.g + kw.1 + kw.2)
  let t2 := w32 (bsig0 st.a + shaMaj st.a st.b st.c)
  ⟨w32 (t1 + t2), st.a, st.b, st.c, w32 (st.d + t1), st.e, st.f, st.g⟩

/-- Extend the 16 block words by n schedule words. -/
def extendSchedule (ws : List Nat) : Nat → List Nat
  | 0 => ws
  | n + 1 =>
    let prev := extendSchedule ws n
    let len := prev.length
    prev ++ [w32 (ssig1 (prev.getD (len - 2) 0) + prev.getD (len - 7) 0 +
                  ssig0 (prev.getD (len - 15) 0) + prev.getD (len - 16) 0)]

/-- Compress one 16-word block into the running state. -/
def shaCompress (H : SHAState) (block : List Nat) : SHAState :=
  let ws := extendSchedule block 48
  let r := (shaK.zip ws).foldl shaRound ⟨H.h0, H.h1, H.h2, H.h3, H.h4, H.h5, H.h6, H.h7⟩
  ⟨w32 (H.h0 + r.a), w32 (H.h1 + r.b), w32 (H.h2 + r.c), w32 (H.h3 + r.d),
   w32 (H.h4 + r.e), w32 (H.h5 + r.f), w32 (H.h6 + r.g), w32 (H.h7 + r.h)⟩

/-- Big-endian 4-byte groups to 32-bit words. -/
def bytesToWords : List Nat → List Nat
  | b0 :: b1 :: b2 :: b3 :: rest =>
    (((b0 * 256 + b1) * 256 + b2) * 256 + b3) :: bytesToWords rest
  | _ => []

/-- Length field: 8 big-endian bytes of the bit length. -/
def lenBytes (n : Nat) : List Nat :=
  (List.range 8).map (fun i => (n >>> (8 * (7 - i))) &&& 255)

/-- SHA-256 message padding. -/
def padBytes (msg : List Nat) : List Nat :=
  let zeros := (55 + 64 - msg.length % 64) % 64
  msg ++ 128 :: List.replicate zeros 0 ++ lenBytes (8 * msg.length)

/-- Split a word list into 16-word blocks. -/
def chunk16 (ws : List Nat) : List (List Nat) :=
  if h : ws = [] then []
  else ws.take 16 :: chunk16 (ws.drop 16)
termination_by ws.length
decreasing_by
  simp only [List.length_drop]
  have := List.length_pos.mpr h
  omega

/-- Final eight hash words of a byte message. -/
def sha256Words (msg : List Nat) : List Nat :=
  let fin := (chunk16 (bytesToWords (padBytes msg))).foldl shaCompress shaInit
  [fin.h0, fin.h1, fin.h2, fin.h3, fin.h4, fin.h5, fin.h6, fin.h7]

/-- Eight lowercase hex digits of a 32-bit word. -/
def toHex32 (x : Nat) : List Char :=
  (List.range 8).map (fun i => hexDigit ((x >>> (28 - 4 * i)) &&& 15))

/-- Hex digest string of a byte message. -/
def sha256Hex (msg : List Nat) : String :=
  String.mk ((sha256Words msg).flatMap toHex32)

/-- Stable hash for an action payload: canonical JSON of the field mapping,
UTF-8 encoded, SHA-256 hex digest (mcp_actions_policy.hash_payload). The
payload is the dict as an insertion-ordered association list. -/
def hashPayload (payload : List (String × J)) : String :=
  sha256Hex (utf8 (ser (J.obj payload)))

/-! ## Key-order invariance of the canonical serialization -/

theorem toHex32_length (x : Nat) : (toHex32 x).length = 8 := by
  simp [toHex32]

theorem sha256Hex_length (m : List Nat) : (sha256Hex m).length = 64 := by
  show ((sha256Words m).flatMap toHex32).length = 64
  simp [sha256Words, toHex32_length]

theorem serFields_eq_map (l : List (String × J)) :
    serFields l = l.map (fun kv => (kv.1, serStr kv.1 ++ ":" ++ ser kv.2)) := by
  induction l with
  | nil => rfl
  | cons kv t ih => cases kv with | mk k v => simp [serFields, ih]

theorem pairwise_keyLt_of_sorted {β : Type} {l : List (String × β)}
    (hs : List.Pairwise keyLe l) (hn : (l.map Prod.fst).Nodup) :
    List.Pairwise keyLt l := by
  have hne : List.Pairwise (fun a b : String × β => a.1 ≠ b.1) l :=
    List.pairwise_map.mp hn
  exact (hs.and hne).imp (fun h => lt_of_le_of_ne h.1 h.2)

theorem eq_of_perm_of_sortedByKey {β : Type} {l₁ l₂ : List (String × β)}
    (hp : l₁.Perm l₂) (h₁ : List.Pairwise keyLe l₁) (h₂ : List.Pairwise keyLe l₂)
    (hn : (l₁.map Prod.fst).Nodup) : l₁ = l₂ := by
  have hn₂ : (l₂.map Prod.fst).Nodup := (hp.map Prod.fst).nodup hn
  exact List.eq_of_perm_of_sorted hp
    (pairwise_keyLt_of_sorted h₁ hn) (pairwise_keyLt_of_sorted h₂ hn₂)

theorem sortByKey_eq_of_perm {β : Type} {l₁ l₂ : List (String × β)}
    (hp : l₁.Perm l₂) (hn : (l₁.map Prod.fst).Nodup) :
    sortByKey l₁ = sortByKey l₂ := by
  have hp' : (sortByKey l₁).Perm (sortByKey l₂) :=
    ((List.perm_insertionSort keyLe l₁).trans hp).trans
      (List.perm_insertionSort keyLe l₂).symm
  have hn₁ : ((sortByKey l₁).map Prod.fst).Nodup :=
    ((List.perm_insertionSort keyLe l₁).map Prod.fst).symm.nodup hn
  exact eq_of_perm_of_sortedByKey hp'
    (List.sorted_insertionSort keyLe l₁) (List.sorted_insertionSort keyLe l₂) hn₁

/-- C9. For every action payload P (a finite string-keyed mapping of JSON
values), computing the action hash yields the same 64-character hex digest
regardless of the order in which the keys of P are supplied; any two payloads
equal as mappings (permutations with distinct keys) hash identically. -/
theorem claim_C9 (p₁ p₂ : List (String × J)) (hperm : p₁.Perm p₂)
    (hkeys : (p₁.map Prod.fst).Nodup) :
    hashPayload p₁ = hashPayload p₂ ∧ (hashPayload p₁).length = 64 := by
  refine ⟨?_, sha256Hex_length _⟩
  have hsf : (serFields p₁).Perm (serFields p₂) := by
    rw [serFields_eq_map, serFields_eq_map]
    exact hperm.map _
  have hk : ((serFields p₁).map Prod.fst).Nodup := by
    rw [serFields_eq_map]
    simpa [List.map_map, Function.comp] using hkeys
  have hss : sortByKey (serFields p₁) = sortByKey (serFields p₂) :=
    sortByKey_eq_of_perm hsf hk
  simp only [hashPayload, ser, hss]

/-- Witness for C9 at a concrete two-field payload given in both key orders. -/
theorem claim_C9_witness :
    (([("b", J.int 1), ("a", J.str "x")] : List (String × J)).Perm
      [("a", J.str "x"), ("b", J.int 1)]) ∧
    (([("b", J.int 1), ("a", J.str "x")] : List (String × J)).map Prod.fst).Nodup ∧
    (hashPayload [("b", J.int 1), ("a", J.str "x")] =
      hashPayload [("a", J.str "x"), ("b", J.int 1)] ∧
     (hashPayload [("b", J.int 1), ("a", J.str "x")]).length = 64) :=
  ⟨List.Perm.swap _ _ _, by decide,
   claim_C9 _ _ (List.Perm.swap _ _ _) (by decide)⟩

/-! ## Local token bucket (tganalytics.infra.limiter.TokenBucket) -/

/-- In-process token bucket state. Time and tokens are exact rationals. -/
structure TokenBucket where
  capacity : Nat
  refillRate : ℚ
  tokens : ℚ
  lastRefill : ℚ

/-- Constructor normalization: `capacity = max(1, int(capacity))`,
`refill_rate = max(0.1, float(refill_rate))`, bucket starts full. -/
def TokenBucket.make (capacity : Int) (refillRate : ℚ) (now : ℚ) : TokenBucket :=
  let cap := (max 1 capacity).toNat
  { capacity := cap, refillRate := max (1 / 10) refillRate,
    tokens := (cap : ℚ), lastRefill := now }

/-- TokenBucket.acquire: reject when more tokens than capacity are requested;
otherwise refill by elapsed time, deduct if possible; else sleep exactly the
computed wait, refill by the waited time and deduct if now possible. -/
def TokenBucket.acquire (b : TokenBucket) (tokensNeeded : Nat) (now : ℚ) :
    Bool × TokenBucket :=
  if (tokensNeeded : ℚ) > (b.capacity : ℚ) then (false, b)
  else
    let tokens₁ := min (b.capacity : ℚ) (b.tokens + (now - b.lastRefill) * b.refillRate)
    if (tokensNeeded : ℚ) ≤ tokens₁ then
      (true, { b with tokens := tokens₁ - (tokensNeeded : ℚ), lastRefill := now })
    else
      let wait := ((tokensNeeded : ℚ) - tokens₁) / b.refillRate
      let tokens₂ := min (b.capacity : ℚ) (tokens₁ + wait * b.refillRate)
      if (tokensNeeded : ℚ) ≤ tokens₂ then
        (true, { b with tokens := tokens₂ - (tokensNeeded : ℚ), lastRefill := now })
      else (false, { b with tokens := tokens₂, lastRefill := now })

/-! ## Flood circuit breaker (RateLimiter.check_circuit_breaker / trip_circuit_breaker) -/

/-- Circuit breaker tuning; the constructor clamps both to be nonnegative. -/
structure CircuitConfig where
  thresholdSec : Nat
  cooldownSec : Nat

/-- check_circuit_breaker on the persisted `open_until` value: returns the
raised error payload (remaining seconds) when open, and the new persisted
state. A stale positive `open_until` that has elapsed is reset to 0. -/
def checkCircuitBreaker (openUntil now : ℚ) : Option Int × ℚ :=
  if openUntil ≤ 0 then (none, openUntil)
  else if now ≥ openUntil then (none, 0)
  else (some (max 0 ⌈openUntil - now⌉), openUntil)

/-- trip_circuit_breaker: open for cooldown seconds when the FLOOD_WAIT is at
least the threshold, never shortening an existing open window. -/
def tripCircuitBreaker (cfg : CircuitConfig) (openUntil : ℚ) (waitS : Int)
    (now : ℚ) : ℚ :=
  if cfg.thresholdSec = 0 then openUntil
  else if waitS < (cfg.thresholdSec : Int) then openUntil
  else
    let newOpen := now + (cfg.cooldownSec : ℚ)
    if newOpen > openUntil then newOpen else openUntil

/-! ## Retry wrapper safe_call (tganalytics.infra.limiter.safe_call)

The attempt stream abstracts what each invocation of the wrapped callable
does: return a value, raise the transport FLOOD_WAIT with a wait time, raise
the per-attempt timeout, raise the typed circuit-open error, or raise any
other exception. The wrapper returns the outcome together with the list of
back-off sleeps it performed (seconds). -/

/-- Outcome of one attempt of the wrapped callable. -/
inductive Attempt (α : Type) where
  | ok (v : α)
  | flood (waitS : Nat)
  | timeout
  | circuitOpen
  | otherErr

/-- Error propagated out of safe_call. -/
inductive SCErr where
  | flood (waitS : Nat)
  | timeout
  | circuitOpen
  | otherErr
  | loopEnd
deriving DecidableEq

/-- The retry loop of safe_call: only FLOOD_WAIT is caught; it consumes one
retry and sleeps `wait_s + 1·2^(retry−1)` (base 1s, retry is the incremented
counter) unless retries are exhausted, in which case the FLOOD_WAIT error
propagates. Timeout, circuit-open and all other errors propagate at once. -/
def safeCallGo {α : Type} (maxRetries : Nat) : Nat → List (Attempt α) →
    Except SCErr α × List Nat
  | _, [] => (.error .loopEnd, [])
  | retryCount, a :: rest =>
    match a with
    | .ok v => (.ok v, [])
    | .timeout => (.error .timeout, [])
    | .circuitOpen => (.error .circuitOpen, [])
    | .otherErr => (.error .otherErr, [])
    | .flood w =>
      if retryCount + 1 > maxRetries then (.error (.flood w), [])
      else
        let r := safeCallGo maxRetries (retryCount + 1) rest
        (r.1, (w + 2 ^ retryCount) :: r.2)

/-- safe_call entry: the loop starts with retry_count = 0. -/
def safeCall {α : Type} (maxRetries : Nat) (attempts : List (Attempt α)) :
    Except SCErr α × List Nat :=
  safeCallGo maxRetries 0 attempts

/-- Attempt raising the given non-recoverable error. -/
def attemptOfErr {α : Type} : SCErr → Attempt α
  | .flood w => .flood w
  | .timeout => .timeout
  | .circuitOpen => .circuitOpen
  | .otherErr => .otherErr
  | .loopEnd => .otherErr

/-! ## Write-request classification (tganalytics.infra.tele_client) -/

/-- Read-side class-name prefixes. -/
def readRequestPrefixes : List String :=
  ["Get", "Check", "Search", "Resolve", "Read", "Fetch", "Ping", "Help"]

/-- Write-side class-name prefixes. -/
def writeRequestPrefixes : List String :=
  ["Send", "Edit", "Delete", "Forward", "Invite", "Add", "Join", "Leave",
   "Create", "Update", "Upload", "Import", "Export", "Pin", "Unpin", "Set",
   "Start", "Stop", "Save", "Install", "Uninstall", "Report", "Block",
   "Unblock", "Kick", "Ban", "Unban"]

/-- Substring test on character lists (Python `needle in hay`). -/
def subOf (needle : List Char) : List Char → Bool
  | [] => needle.isEmpty
  | c :: rest => List.isPrefixOf needle (c :: rest) || subOf needle rest

/-- Substring test on strings. -/
def strContainsSub (needle hay : String) : Bool := subOf needle.data hay.data

/-- Python str.startswith. -/
def strStartsWith (s pre : String) : Bool := pre.data.isPrefixOf s.data

/-- Raw MTProto request object, reduced to what the classifier reads:
the class module and the class name. None models a `None` request. -/
structure RawRequest where
  module : String
  name : String

/-- _is_telethon_write_request: requests outside telethon.tl.functions are
not write; read-prefix names are not write; write-prefix names are write;
anything else falls through to not-write. -/
def isTelethonWriteRequest : Option RawRequest → Bool
  | none => false
  | some r =>
    if !strContainsSub "telethon.tl.functions" r.module then false
    else if readRequestPrefixes.any (fun p => strStartsWith r.name p) then false
    else if writeRequestPrefixes.any (fun p => strStartsWith r.name p) then true
    else false

/-- _contains_telethon_write_request for a batch of requests. -/
def containsTelethonWriteRequestBatch (reqs : List (Option RawRequest)) : Bool :=
  reqs.any isTelethonWriteRequest

/-- Write-guard environment configuration as read at import time. -/
structure WriteGuardConfig where
  writeGuardEnabled : Bool
  allowDirectWrite : Bool
  enforceActionProcess : Bool
  isActionsProcess : Bool
  writeContext : String
  writeAllowedContexts : List String

/-- _is_direct_write_allowed. -/
def isDirectWriteAllowed (c : WriteGuardConfig) : Bool :=
  if !c.writeGuardEnabled then true
  else if c.enforceActionProcess && !c.isActionsProcess then false
  else if c.allowDirectWrite then true
  else c.writeContext != "" && c.writeAllowedContexts.contains c.writeContext

/-- Permission error text raised by _raise_write_guard_error. -/
def writeGuardErrorMsg (methodName : String) : String :=
  "Direct Telegram write " ++ sq ++ methodName ++ sq ++
    " is blocked by default. Use tgmcp-actions (Action MCP) with confirm=true and allowlist."

/-- GuardedTelegramClient.__call__ on a single raw request: raise the
permission error when the request classifies as write and direct writes are
not allowed; otherwise forward the call. -/
def guardedClientCall (cfg : WriteGuardConfig) (r : Option RawRequest) :
    Except String Unit :=
  if isTelethonWriteRequest r && !isDirectWriteAllowed cfg then
    .error (writeGuardErrorMsg (match r with | some q => q.name | none => "NoneType"))
  else .ok ()

/-! ## Claims C5, C6, C3, C4 -/

/-- C5. For the local token bucket: acquire(n) with n greater than the
capacity returns false without changing the bucket; after every acquire call
the token count never exceeds the capacity (given it did not before); and
whenever acquire returns true the resulting token count is nonnegative,
tokens having actually been deducted. -/
theorem claim_C5 (b : TokenBucket) (n : Nat) (now : ℚ)
    (hcap : b.tokens ≤ (b.capacity : ℚ)) :
    ((n : ℚ) > (b.capacity : ℚ) → b.acquire n now = (false, b)) ∧
    ((b.acquire n now).2.tokens ≤ ((b.acquire n now).2.capacity : ℚ)) ∧
    ((b.acquire n now).1 = true → 0 ≤ (b.acquire n now).2.tokens) := by
  unfold TokenBucket.acquire
  split
  · next hgt =>
    refine ⟨fun _ => rfl, by simpa using hcap, by simp⟩
  · next hle =>
    refine ⟨fun h => absurd h hle, ?_, ?_⟩ <;> dsimp only <;> split
    · next h₁ =>
      have : (0 : ℚ) ≤ (n : ℚ) := by positivity
      simp only
      have hmin := min_le_left ((b.capacity : ℚ))
        (b.tokens + (now - b.lastRefill) * b.refillRate)
      linarith
    · split
      · next h₂ =>
        have : (0 : ℚ) ≤ (n : ℚ) := by positivity
        simp only
        have hmin := min_le_left ((b.capacity : ℚ))
          (min ((b.capacity : ℚ)) (b.tokens + (now - b.lastRefill) * b.refillRate) +
            (((n : ℚ) - min ((b.capacity : ℚ)) (b.tokens + (now - b.lastRefill) * b.refillRate)) /
              b.refillRate) * b.refillRate)
        linarith
      · next h₂ =>
        simp only
        exact min_le_left _ _
    · next h₁ =>
      intro _
      simp only
      linarith
    · split
      · next h₂ =>
        intro _
        simp only
        linarith
      · simp

/-- Witness for C5 at a full default bucket (capacity 10, rate 4) asking for
one token. -/
theorem claim_C5_witness :
    ((⟨10, 4, 10, 0⟩ : TokenBucket).tokens ≤ (((⟨10, 4, 10, 0⟩ : TokenBucket).capacity : Nat) : ℚ)) ∧
    (((1 : Nat) : ℚ) > ((10 : Nat) : ℚ) → (⟨10, 4, 10, 0⟩ : TokenBucket).acquire 1 5 = (false, ⟨10, 4, 10, 0⟩)) ∧
    (((⟨10, 4, 10, 0⟩ : TokenBucket).acquire 1 5).2.tokens ≤
      ((((⟨10, 4, 10, 0⟩ : TokenBucket).acquire 1 5).2.capacity : Nat) : ℚ)) ∧
    (((⟨10, 4, 10, 0⟩ : TokenBucket).acquire 1 5).1 = true →
      0 ≤ ((⟨10, 4, 10, 0⟩ : TokenBucket).acquire 1 5).2.tokens) := by
  have h := claim_C5 ⟨10, 4, 10, 0⟩ 1 5 (by norm_num)
  exact ⟨by norm_num, h.1, h.2.1, h.2.2⟩

/-- C6. For the flood circuit breaker: check raises the typed circuit-open
error carrying the remaining seconds exactly when now is before open_until,
and otherwise returns normally with the persisted state reset to closed;
trip opens the breaker for cooldown_sec only when the FLOOD_WAIT is at least
the threshold and only by extending the stored open_until, so an open window
is never shortened. -/
theorem claim_C6 (cfg : CircuitConfig) (openUntil now : ℚ) (waitS : Int)
    (hnow : 0 ≤ now) :
    ((checkCircuitBreaker openUntil now).1.isSome ↔ now < openUntil) ∧
    (now < openUntil →
      (checkCircuitBreaker openUntil now).1 = some ⌈openUntil - now⌉ ∧
      (checkCircuitBreaker openUntil now).2 = openUntil) ∧
    (¬ now < openUntil →
      (checkCircuitBreaker openUntil now).1 = none ∧
      (checkCircuitBreaker openUntil now).2 ≤ 0) ∧
    (openUntil ≤ tripCircuitBreaker cfg openUntil waitS now) ∧
    (tripCircuitBreaker cfg openUntil waitS now ≠ openUntil →
      cfg.thresholdSec ≠ 0 ∧ (cfg.thresholdSec : Int) ≤ waitS ∧
      openUntil < tripCircuitBreaker cfg openUntil waitS now ∧
      tripCircuitBreaker cfg openUntil waitS now = now + (cfg.cooldownSec : ℚ)) := by
  unfold checkCircuitBreaker tripCircuitBreaker
  refine ⟨?_, ?_, ?_, ?_, ?_⟩
  · split
    · next h => simp; linarith
    · split
      · next h => simp; linarith
      · next h₁ h₂ => simp; push_neg at h₂; exact h₂
  · intro hlt
    split
    · next h => exact absurd hnow (by linarith)
    · split
      · next h => exact absurd hlt (by linarith)
      · constructor
        · have hpos : (0 : Int) < ⌈openUntil - now⌉ := Int.ceil_pos.mpr (by linarith)
          simp [max_eq_right hpos.le]
        · rfl
  · intro hge
    push_neg at hge
    by_cases h0 : openUntil ≤ 0
    · rw [if_pos h0]
      exact ⟨rfl, h0⟩
    · rw [if_neg h0, if_pos hge]
      exact ⟨rfl, le_refl 0⟩
  · split
    · exact le_refl _
    · split
      · exact le_refl _
      · dsimp only
        split
        · next h => linarith
        · exact le_refl _
  · intro hne
    by_cases h₁ : cfg.thresholdSec = 0
    · rw [if_pos h₁] at hne
      exact absurd rfl hne
    · rw [if_neg h₁] at hne ⊢
      by_cases h₂ : waitS < (cfg.thresholdSec : Int)
      · rw [if_pos h₂] at hne
        exact absurd rfl hne
      · rw [if_neg h₂] at hne ⊢
        push_neg at h₂
        dsimp only at hne ⊢
        by_cases h₃ : now + (cfg.cooldownSec : ℚ) > openUntil
        · rw [if_pos h₃]
          exact ⟨h₁, h₂, h₃, rfl⟩
        · rw [if_neg h₃] at hne
          exact absurd rfl hne

/-- Witness for C6 with a breaker open until 100 checked at time 40 and a
trip of 300 seconds against threshold 300, cooldown 900. -/
theorem claim_C6_witness :
    ((0 : ℚ) ≤ 40) ∧
    ((checkCircuitBreaker 100 40).1.isSome ↔ (40 : ℚ) < 100) ∧
    (((40 : ℚ) < 100) → (checkCircuitBreaker 100 40).1 = some ⌈(100 : ℚ) - 40⌉ ∧
      (checkCircuitBreaker 100 40).2 = 100) ∧
    ((100 : ℚ) ≤ tripCircuitBreaker ⟨300, 900⟩ 100 300 40) := by
  have h := claim_C6 ⟨300, 900⟩ 100 40 300 (by norm_num)
  exact ⟨by norm_num, h.1, h.2.1, h.2.2.2.1⟩

/-- Run of the retry loop across k consecutive FLOOD_WAIT attempts while
retries remain: each one adds a sleep of waitS + 2^(counter) seconds and the
loop continues with the counter advanced. -/
theorem safeCallGo_replicate_flood {α : Type} (maxR w : Nat) :
    ∀ (k rc : Nat) (rest : List (Attempt α)), rc + k ≤ maxR →
    safeCallGo maxR rc (List.replicate k (Attempt.flood w) ++ rest) =
      ((safeCallGo maxR (rc + k) rest).1,
       (List.range' rc k).map (fun i => w + 2 ^ i) ++
         (safeCallGo maxR (rc + k) rest).2)
  | 0, rc, rest, _ => by simp [List.range']
  | k + 1, rc, rest, h => by
    have hnot : ¬ rc + 1 > maxR := by omega
    have ih := safeCallGo_replicate_flood maxR w k (rc + 1) rest (by omega)
    have harith : rc + (k + 1) = rc + 1 + k := by omega
    rw [harith]
    simp only [List.replicate_succ, List.cons_append, safeCallGo, if_neg hnot,
      List.range'_succ, List.map_cons, List.cons_append]
    simp only [List.append_eq, ih]

/-- C4. For every invocation of the retry wrapper safe_call: only the
transport FLOOD_WAIT error is retried, sleeping waitS + 1·2^(retry−1) seconds
before each retry; after max_retries retries a further FLOOD_WAIT propagates;
a per-attempt timeout, a circuit-open error and every other error propagate
to the caller immediately, without any retry sleep. -/
theorem claim_C4 {α : Type} (maxR k w : Nat) (v : α) (rest : List (Attempt α))
    (e : SCErr) :
    (k ≤ maxR →
      safeCall maxR (List.replicate k (Attempt.flood w) ++ Attempt.ok v :: rest) =
        (.ok v, (List.range k).map (fun i => w + 2 ^ i))) ∧
    (safeCall maxR (List.replicate (maxR + 1) (Attempt.flood w) ++ rest) =
        (.error (.flood w), (List.range maxR).map (fun i => w + 2 ^ i))) ∧
    ((e = .timeout ∨ e = .circuitOpen ∨ e = .otherErr) → k ≤ maxR →
      safeCall maxR (List.replicate k (Attempt.flood w) ++ attemptOfErr e :: rest) =
        (.error e, (List.range k).map (fun i => w + 2 ^ i))) := by
  refine ⟨?_, ?_, ?_⟩
  · intro hk
    rw [safeCall, safeCallGo_replicate_flood maxR w k 0 _ (by omega)]
    simp [safeCallGo, List.range_eq_range']
  · rw [safeCall, List.replicate_succ' maxR, List.append_assoc,
      safeCallGo_replicate_flood maxR w maxR 0 _ (by omega)]
    have : maxR + 1 > maxR := by omega
    simp [safeCallGo, if_pos this, List.range_eq_range']
  · rintro (rfl | rfl | rfl) hk <;>
      rw [safeCall, safeCallGo_replicate_flood maxR w k 0 _ (by omega)] <;>
      simp [safeCallGo, attemptOfErr, List.range_eq_range']

/-- Witness for C4 with max_retries 3: two FLOOD_WAIT(5) then success; four
FLOOD_WAIT(5); a timeout after one FLOOD_WAIT. -/
theorem claim_C4_witness :
    ((2 : Nat) ≤ 3 →
      safeCall 3 (List.replicate 2 (Attempt.flood 5) ++ Attempt.ok (7 : Nat) :: []) =
        (.ok 7, (List.range 2).map (fun i => 5 + 2 ^ i))) ∧
    (safeCall (α := Nat) 3 (List.replicate (3 + 1) (Attempt.flood 5) ++ []) =
        (.error (.flood 5), (List.range 3).map (fun i => 5 + 2 ^ i))) ∧
    ((SCErr.timeout = SCErr.timeout ∨ SCErr.timeout = SCErr.circuitOpen ∨
        SCErr.timeout = SCErr.otherErr) → (1 : Nat) ≤ 3 →
      safeCall (α := Nat) 3
          (List.replicate 1 (Attempt.flood 5) ++ attemptOfErr SCErr.timeout :: []) =
        (.error SCErr.timeout, (List.range 1).map (fun i => 5 + 2 ^ i))) := by
  have h₁ := (claim_C4 (α := Nat) 3 2 5 7 [] SCErr.timeout).1
  have h₂ := (claim_C4 (α := Nat) 3 2 5 7 [] SCErr.timeout).2.1
  have h₃ := (claim_C4 (α := Nat) 3 1 5 7 [] SCErr.timeout).2.2
  exact ⟨h₁, h₂, h₃⟩

/-- C3 counterexample. TranslateTextRequest lives in telethon.tl.functions
and its name starts with no read-side and no write-side prefix, yet the
classifier returns not-write, and the guarded client forwards it even in a
process where direct writes are not permitted — contradicting the claim that
unknown prefixes are treated as write and blocked. -/
theorem claim_C3_counterexample :
    strContainsSub "telethon.tl.functions" "telethon.tl.functions.messages" = true ∧
    readRequestPrefixes.any
      (fun p => strStartsWith "TranslateTextRequest" p) = false ∧
    writeRequestPrefixes.any
      (fun p => strStartsWith "TranslateTextRequest" p) = false ∧
    isTelethonWriteRequest
      (some ⟨"telethon.tl.functions.messages", "TranslateTextRequest"⟩) = false ∧
    guardedClientCall ⟨true, false, true, false, "read_mcp", ["actions_mcp"]⟩
      (some ⟨"telethon.tl.functions.messages", "TranslateTextRequest"⟩) = .ok () :=
  ⟨by decide, by decide, by decide, by decide, by rfl⟩

/-- C3 (amended). For every raw MTProto request from the transport library
whose class name matches neither a read-side prefix nor a write-side prefix,
the classifier treats it as a read (permissive fallback), so the guarded
client forwards it under every write-guard configuration, including when
writes are not permitted. -/
theorem claim_C3 (module name : String) (cfg : WriteGuardConfig)
    (hmod : strContainsSub "telethon.tl.functions" module = true)
    (hread : readRequestPrefixes.any (fun p => strStartsWith name p) = false)
    (hwrite : writeRequestPrefixes.any (fun p => strStartsWith name p) = false) :
    isTelethonWriteRequest (some ⟨module, name⟩) = false ∧
    guardedClientCall cfg (some ⟨module, name⟩) = .ok () := by
  have hclass : isTelethonWriteRequest (some ⟨module, name⟩) = false := by
    simp [isTelethonWriteRequest, hmod, hread, hwrite]
  exact ⟨hclass, by simp [guardedClientCall, hclass]⟩

/-- Witness for C3 (amended) at TranslateTextRequest under a configuration
where direct writes are not allowed. -/
theorem claim_C3_witness :
    strContainsSub "telethon.tl.functions" "telethon.tl.functions.messages" = true ∧
    readRequestPrefixes.any
      (fun p => strStartsWith "TranslateTextRequest" p) = false ∧
    writeRequestPrefixes.any
      (fun p => strStartsWith "TranslateTextRequest" p) = false ∧
    (isTelethonWriteRequest
       (some ⟨"telethon.tl.functions.messages", "TranslateTextRequest"⟩) = false ∧
     guardedClientCall ⟨true, false, true, true, "read_mcp", ["actions_mcp"]⟩
       (some ⟨"telethon.tl.functions.messages", "TranslateTextRequest"⟩) = .ok ()) :=
  ⟨by decide, by decide, by decide,
   claim_C3 "telethon.tl.functions.messages" "TranslateTextRequest"
     ⟨true, false, true, true, "read_mcp", ["actions_mcp"]⟩
     (by decide) (by decide) (by decide)⟩

/-! ## Approval store (mcp_server_actions._issue_approval / _consume_approval)

The persisted approvals JSON object maps code → record with digest and
expiry; it is modeled as an association list with distinct keys (a dict). -/

/-- One approval record. -/
structure ApprovalItem where
  digest : String
  expiresAt : ℚ
deriving DecidableEq

/-- Approvals store: code → record. -/
abbrev ApprovalsState := List (String × ApprovalItem)

/-- Idempotency store: digest → last executed timestamp. -/
abbrev IdemState := List (String × ℚ)

/-- _trim_approvals keeps records whose expiry is strictly in the future. -/
def trimApprovals (state : ApprovalsState) (now : ℚ) : ApprovalsState :=
  state.filter (fun kv => decide (now < kv.2.expiresAt))

/-- Error text for a missing or expired approval code. -/
def approvalInvalidMsg : String :=
  "Execution blocked: approval_code is invalid or expired."

/-- Error text for an absent approval code. -/
def approvalRequiredMsg : String :=
  "Execution blocked: approval_code is required. Run the same action with dry_run=true first."

/-- Error text for an approval code bound to a different payload. -/
def approvalMismatchMsg : String :=
  "Execution blocked: approval_code does not match this payload. Generate a fresh dry_run preview."

/-- Python str.strip: drop leading and trailing whitespace. -/
def pyStrip (s : String) : String :=
  String.mk (((s.data.dropWhile Char.isWhitespace).reverse.dropWhile
    Char.isWhitespace).reverse)

/-- Python str.lower, restricted to ASCII case folding (the configured
phrases and targets relevant here are ASCII or already lowercase). -/
def pyLower (s : String) : String := String.mk (s.data.map Char.toLower)

/-- _consume_approval: trim expired records (the trimmed state persists even
on failure), require a nonempty code, look it up, require the digest to match
the payload hash, and on success pop the record. -/
def consumeApproval (state : ApprovalsState) (payloadHash approvalCode : String)
    (now : ℚ) : (Bool × Option String) × ApprovalsState :=
  let code := pyStrip approvalCode
  let trimmed := trimApprovals state now
  if code = "" then ((false, some approvalRequiredMsg), trimmed)
  else
    match trimmed.lookup code with
    | none => ((false, some approvalInvalidMsg), trimmed)
    | some item =>
      if item.digest ≠ payloadHash then ((false, some approvalMismatchMsg), trimmed)
      else ((true, none), trimmed.eraseP (fun kv => kv.1 == code))

/-- _issue_approval: trim, then store the fresh code with expiry now + TTL.
The randomly generated code is passed in; returns the approval metadata
(code, TTL, absolute expiry). -/
def issueApproval (state : ApprovalsState) (payloadHash code : String)
    (ttlSec now : ℚ) : ApprovalsState × (String × ℚ × ℚ) :=
  let expiresAt := now + ttlSec
  let trimmed := trimApprovals state now
  ((trimmed.eraseP (fun kv => kv.1 == code)) ++ [(code, ⟨payloadHash, expiresAt⟩)],
   (code, ttlSec, expiresAt))

/-! ## Idempotency store (_check_recent_duplicate / _mark_action_executed) -/

/-- _check_recent_duplicate: when enabled, trim stale digests (persisted),
then report a duplicate when the remaining window, truncated to whole
seconds, is positive. -/
def checkRecentDuplicate (enabled : Bool) (windowSec : ℚ) (state : IdemState)
    (actionHash : String) (now : ℚ) : (Bool × Int) × IdemState :=
  if !enabled then ((false, 0), state)
  else
    let fresh := state.filter (fun kv => decide (now - kv.2 ≤ windowSec))
    match fresh.lookup actionHash with
    | none => ((false, 0), fresh)
    | some lastTs =>
      let retryAfter := ⌊max 0 (windowSec - (now - lastTs))⌋
      ((decide (0 < retryAfter), retryAfter), fresh)

/-- _mark_action_executed: when enabled, record the digest at now. -/
def markActionExecuted (enabled : Bool) (state : IdemState) (actionHash : String)
    (now : ℚ) : IdemState :=
  if !enabled then state
  else (state.eraseP (fun kv => kv.1 == actionHash)) ++ [(actionHash, now)]

/-! ## Action policy gates (mcp_actions_policy + mcp_server_actions) -/

/-- Load-time action policy configuration. -/
structure ActionsConfig where
  safeStartupBlockReason : Option String
  actionsEnabled : Bool
  requireAllowlist : Bool
  allowedTargets : List String
  requireConfirmationText : Bool
  minConfirmationTextLen : Nat
  confirmationPhrase : String
  requireApprovalCode : Bool
  approvalTtlSec : ℚ
  idempotencyEnabled : Bool
  idempotencyWindowSec : ℚ
  maxMessageLen : Nat

/-- normalize_target: strip, drop a leading @, lowercase. -/
def normalizeTarget (group : String) : String :=
  let value := pyStrip group
  let value := if strStartsWith value "@" then String.mk (value.data.drop 1) else value
  pyLower value

/-- _check_target_allowed. -/
def checkTargetAllowed (cfg : ActionsConfig) (group : String) :
    Bool × Option String :=
  let normalized := normalizeTarget group
  if cfg.requireAllowlist && cfg.allowedTargets.isEmpty then
    (false, some "Actions blocked: TG_ACTIONS_REQUIRE_ALLOWLIST=1 but TG_ACTIONS_ALLOWED_GROUPS is empty.")
  else if !cfg.allowedTargets.isEmpty && !cfg.allowedTargets.contains normalized then
    (false, some ("Target " ++ sq ++ group ++ sq ++ " is not in TG_ACTIONS_ALLOWED_GROUPS."))
  else (true, none)

/-- validate_confirmation_text for non-dry-run writes. -/
def validateConfirmationText (cfg : ActionsConfig) (confirmationText : String)
    (dryRun : Bool) : Bool × Option String :=
  if dryRun || !cfg.requireConfirmationText then (true, none)
  else
    let text := pyStrip confirmationText
    if text.length < cfg.minConfirmationTextLen then
      (false, some ("Execution blocked: add confirmation_text from user in this thread (min "
        ++ toString cfg.minConfirmationTextLen ++ " chars)."))
    else if cfg.confirmationPhrase != "" && pyLower text != cfg.confirmationPhrase then
      (false, some ("Execution blocked: confirmation_text must be exactly "
        ++ sq ++ cfg.confirmationPhrase ++ sq ++ "."))
    else (true, none)

/-- _check_action_preconditions: startup safety gate, enabled gate, allowlist
gate, confirm gate, confirmation-phrase gate, in that order. -/
def checkActionPreconditions (cfg : ActionsConfig) (group : String)
    (dryRun confirm : Bool) (confirmationText : String) : Bool × Option String :=
  match cfg.safeStartupBlockReason with
  | some reason => (false, some reason)
  | none =>
    if !cfg.actionsEnabled then
      (false, some "Actions are disabled. Set TG_ACTIONS_ENABLED=1.")
    else
      match checkTargetAllowed cfg group with
      | (false, err) => (false, err)
      | (true, _) =>
        if !dryRun && !confirm then
          (false, some ("Execution blocked: set confirm=true to run destructive action. "
            ++ "Use dry_run=true to preview safely."))
        else
          match validateConfirmationText cfg confirmationText dryRun with
          | (false, err) => (false, err)
          | (true, _) => (true, none)

/-- _approval_gate: pass through when codes are not required; dry-run issues
a code; execution consumes one. -/
def approvalGate (cfg : ActionsConfig) (approvals : ApprovalsState)
    (actionHash : String) (dryRun : Bool) (approvalCode : String) (now : ℚ)
    (newCode : String) :
    (Bool × Option String × Option (String × ℚ × ℚ)) × ApprovalsState :=
  if !cfg.requireApprovalCode then ((true, none, none), approvals)
  else if dryRun then
    let issued := issueApproval approvals actionHash newCode cfg.approvalTtlSec now
    ((true, none, some issued.2), issued.1)
  else
    let consumed := consumeApproval approvals actionHash approvalCode now
    ((consumed.1.1, consumed.1.2, none), consumed.2)

/-! ## The tg_send_message tool -/

/-- Persisted pipeline state seen by the send tool. -/
structure ActionsState where
  approvals : ApprovalsState
  idem : IdemState

/-- Response of tg_send_message, reduced to the fields the claims are about.
telegramInvoked records whether the underlying manager.send_message call was
made (it is not part of the returned payload). -/
structure SendResult where
  success : Bool
  isDryRun : Bool
  duplicateBlocked : Bool
  retryAfterSec : Int
  actionHash : Option String
  error : Option String
  approvalCode : Option String
  telegramInvoked : Bool

/-- Blocked response (the _blocked helper): success false plus the error. -/
def blockedResult (error : Option String) : SendResult :=
  ⟨false, false, false, 0, none, error, none, false⟩

/-- Action hash of a send_message payload. -/
def sendMessageActionHash (group messageText : String) : String :=
  hashPayload
    [("action", J.str "send_message"),
     ("target", J.str (normalizeTarget group)),
     ("text", J.str (pyStrip messageText))]

/-- tg_send_message with dry-run, approval, idempotency gates and the
underlying Telegram call, in source order. now is the wall clock, newCode the
random token a dry-run would issue, sendOk whether manager.send_message
succeeds when invoked. -/
def tgSendMessage (cfg : ActionsConfig) (st : ActionsState)
    (group messageText : String) (dryRun confirm : Bool)
    (confirmationText approvalCode : String) (forceResend : Bool) (now : ℚ)
    (newCode : String) (sendOk : Bool) : SendResult × ActionsState :=
  match checkActionPreconditions cfg group dryRun confirm confirmationText with
  | (false, err) => (blockedResult (some ((err.getD "preconditions failed"))), st)
  | (true, _) =>
    let cleanText := pyStrip messageText
    if cleanText = "" then (blockedResult (some "message_text is empty"), st)
    else if cleanText.length > cfg.maxMessageLen then
      (blockedResult (some ("message_text is too long (" ++ toString cleanText.length
        ++ " > " ++ toString cfg.maxMessageLen ++ ")")), st)
    else
      let actionHash := sendMessageActionHash group messageText
      match approvalGate cfg st.approvals actionHash dryRun approvalCode now newCode with
      | ((false, err, _), approvals') =>
        (blockedResult (some (err.getD "approval gate blocked")),
         { st with approvals := approvals' })
      | ((true, _, meta), approvals') =>
        if dryRun then
          ({ success := true, isDryRun := true, duplicateBlocked := false,
             retryAfterSec := 0, actionHash := some actionHash, error := none,
             approvalCode := meta.map (fun m => m.1), telegramInvoked := false },
           { st with approvals := approvals' })
        else
          let dup := if forceResend then ((false, 0), st.idem)
            else checkRecentDuplicate cfg.idempotencyEnabled cfg.idempotencyWindowSec
              st.idem actionHash now
          if dup.1.1 then
            ({ success := false, isDryRun := false, duplicateBlocked := true,
               retryAfterSec := dup.1.2, actionHash := some actionHash,
               error := some ("Duplicate action blocked by idempotency window. "
                 ++ "Set force_resend=true to override."),
               approvalCode := none, telegramInvoked := false },
             { approvals := approvals', idem := dup.2 })
          else if sendOk then
            ({ success := true, isDryRun := false, duplicateBlocked := false,
               retryAfterSec := 0, actionHash := some actionHash, error := none,
               approvalCode := none, telegramInvoked := true },
             { approvals := approvals',
               idem := markActionExecuted cfg.idempotencyEnabled dup.2 actionHash now })
          else
            ({ success := false, isDryRun := false, duplicateBlocked := false,
               retryAfterSec := 0, actionHash := some actionHash,
               error := some "send_message failed (see server logs for details)",
               approvalCode := none, telegramInvoked := true },
             { approvals := approvals', idem := dup.2 })

/-! ## Association-list lemmas for the persisted dict states -/

theorem lookup_eq_none_of_not_mem_keys {β : Type} (c : String) :
    ∀ (l : List (String × β)), c ∉ l.map Prod.fst → l.lookup c = none
  | [], _ => rfl
  | (k, b) :: t, h => by
    simp only [List.map_cons, List.mem_cons] at h
    push_neg at h
    have hck : (c == k) = false := beq_eq_false_iff_ne.mpr h.1
    simp only [List.lookup_cons, hck]
    exact lookup_eq_none_of_not_mem_keys c t h.2

theorem lookup_filter_keyed {β : Type} (c : String) (p : String × β → Bool) :
    ∀ (l : List (String × β)), (l.map Prod.fst).Nodup →
    (l.filter p).lookup c =
      (l.lookup c).bind (fun b => if p (c, b) then some b else none)
  | [], _ => rfl
  | (k, b) :: t, hn => by
    rw [List.map_cons, List.nodup_cons] at hn
    by_cases hck : c = k
    · subst hck
      by_cases hp : p (c, b)
      · simp [List.filter_cons, hp, List.lookup_cons]
      · simp only [List.filter_cons, hp, Bool.false_eq_true, if_false,
          List.lookup_cons, beq_self_eq_true, Option.some_bind]
        rw [lookup_eq_none_of_not_mem_keys c (t.filter p)
          (fun hmem => hn.1 (((List.filter_sublist t).map Prod.fst).subset hmem))]
    · have hbeq : (c == k) = false := beq_eq_false_iff_ne.mpr hck
      have ih := lookup_filter_keyed c p t hn.2
      by_cases hp : p (k, b)
      · simp only [List.filter_cons, hp, if_true, List.lookup_cons, hbeq]
        exact ih
      · simp only [List.filter_cons, hp, Bool.false_eq_true, if_false,
          List.lookup_cons, hbeq]
        exact ih

theorem lookup_eraseP_key {β : Type} (c : String) :
    ∀ (l : List (String × β)), (l.map Prod.fst).Nodup →
    (l.eraseP (fun kv => kv.1 == c)).lookup c = none
  | [], _ => rfl
  | (k, b) :: t, hn => by
    rw [List.map_cons, List.nodup_cons] at hn
    by_cases hkc : k = c
    · subst hkc
      simp only [List.eraseP_cons, beq_self_eq_true, cond_true]
      exact lookup_eq_none_of_not_mem_keys k t hn.1
    · have hbeq : (k == c) = false := beq_eq_false_iff_ne.mpr hkc
      have hbeq' : (c == k) = false := beq_eq_false_iff_ne.mpr (Ne.symm hkc)
      simp only [List.eraseP_cons, hbeq, cond_false, List.lookup_cons, hbeq']
      exact lookup_eraseP_key c t hn.2

theorem nodup_keys_filter {β : Type} (p : String × β → Bool)
    (l : List (String × β)) (hn : (l.map Prod.fst).Nodup) :
    ((l.filter p).map Prod.fst).Nodup :=
  hn.sublist ((List.filter_sublist l).map Prod.fst)

/-- Record present and unexpired survives the trim and is found. -/
theorem lookup_trimApprovals (s : ApprovalsState) (c : String)
    (item : ApprovalItem) (now : ℚ) (hn : (s.map Prod.fst).Nodup)
    (hlook : s.lookup c = some item) (hexp : now < item.expiresAt) :
    (trimApprovals s now).lookup c = some item := by
  simp only [trimApprovals]
  rw [lookup_filter_keyed c _ s hn, hlook]
  simp [hexp]

/-- C1. An approval record issued for payload hash H under code C can be
consumed by at most one execute: a consume of (H, C) before the TTL expiry
succeeds and removes the record, and every later consume presenting the same
code C (against any state in which C is absent, as it is after the first
consume) returns the blocked result with the invalid-or-expired error and
leaves C absent, so no approval code is ever consumed twice. -/
theorem claim_C1 (s : ApprovalsState) (H C : String) (now : ℚ)
    (item : ApprovalItem) (hnodup : (s.map Prod.fst).Nodup)
    (htrim : pyStrip C = C) (hne : C ≠ "")
    (hlook : s.lookup C = some item) (hexp : now < item.expiresAt)
    (hdig : item.digest = H) :
    (consumeApproval s H C now).1 = (true, none) ∧
    (consumeApproval s H C now).2.lookup C = none ∧
    (∀ (s' : ApprovalsState) (H' : String) (now' : ℚ),
      (s'.map Prod.fst).Nodup → s'.lookup C = none →
      (consumeApproval s' H' C now').1 = (false, some approvalInvalidMsg) ∧
      (consumeApproval s' H' C now').2.lookup C = none) := by
  have hfound := lookup_trimApprovals s C item now hnodup hlook hexp
  have hnodupT : ((trimApprovals s now).map Prod.fst).Nodup :=
    nodup_keys_filter _ s hnodup
  refine ⟨?_, ?_, ?_⟩
  · rw [consumeApproval]
    simp only [htrim, if_neg hne, hfound, hdig, ne_eq, not_true_eq_false, if_neg]
    simp
  · rw [consumeApproval]
    simp only [htrim, if_neg hne, hfound, hdig, ne_eq, not_true_eq_false, if_neg]
    simp only [ite_false]
    exact lookup_eraseP_key C (trimApprovals s now) hnodupT
  · intro s' H' now' hn' habsent
    have habsT : (trimApprovals s' now').lookup C = none := by
      simp only [trimApprovals]
      rw [lookup_filter_keyed C _ s' hn', habsent]
      rfl
    constructor
    · rw [consumeApproval]
      simp only [htrim, if_neg hne, habsT]
    · rw [consumeApproval]
      simp only [htrim, if_neg hne, habsT]

/-- Witness for C1: a valid record for code OKCODE1 and payload hash h1,
consumed at time 10 before its expiry 100. -/
theorem claim_C1_witness :
    (([("OKCODE1", (⟨"h1", 100⟩ : ApprovalItem))].map Prod.fst).Nodup) ∧
    pyStrip "OKCODE1" = "OKCODE1" ∧ "OKCODE1" ≠ "" ∧
    ([("OKCODE1", (⟨"h1", 100⟩ : ApprovalItem))].lookup "OKCODE1" =
      some (⟨"h1", 100⟩ : ApprovalItem)) ∧ (10 : ℚ) < 100 ∧
    ((consumeApproval [("OKCODE1", ⟨"h1", 100⟩)] "h1" "OKCODE1" 10).1 = (true, none) ∧
     (consumeApproval [("OKCODE1", ⟨"h1", 100⟩)] "h1" "OKCODE1" 10).2.lookup "OKCODE1"
       = none) := by
  have h := claim_C1 [("OKCODE1", ⟨"h1", 100⟩)] "h1" "OKCODE1" 10 ⟨"h1", 100⟩
    (by decide) (by decide) (by decide) (by decide) (by norm_num) rfl
  exact ⟨by decide, by decide, by decide, by decide, by norm_num, h.1, h.2.1⟩

/-- Characterization of _check_recent_duplicate when the digest is marked
with at least one whole second of the window remaining. -/
theorem checkRecentDuplicate_hit (W : ℚ) (idem : IdemState) (Hh : String)
    (now t : ℚ) (hn : (idem.map Prod.fst).Nodup)
    (hl : idem.lookup Hh = some t) (hw : 1 ≤ W - (now - t)) :
    checkRecentDuplicate true W idem Hh now =
      ((true, ⌊W - (now - t)⌋), idem.filter (fun kv => decide (now - kv.2 ≤ W))) ∧
    1 ≤ ⌊W - (now - t)⌋ := by
  have hkeep : (decide (now - t ≤ W)) = true := decide_eq_true (by linarith)
  have hfresh : (idem.filter (fun kv => decide (now - kv.2 ≤ W))).lookup Hh = some t := by
    rw [lookup_filter_keyed Hh _ idem hn, hl]
    simp only [Option.some_bind, hkeep, if_true]
  have hmax : max 0 (W - (now - t)) = W - (now - t) :=
    max_eq_right (by linarith)
  have hfloor : (1 : Int) ≤ ⌊W - (now - t)⌋ := by
    rw [Int.le_floor]
    push_cast
    linarith
  refine ⟨?_, hfloor⟩
  rw [checkRecentDuplicate]
  simp only [Bool.not_true, Bool.false_eq_true, if_false, hfresh, hmax]
  have : decide ((0 : Int) < ⌊W - (now - t)⌋) = true :=
    decide_eq_true (by omega)
  rw [this]

/-- C2 (amended). For every non-dry-run execution of a send-message payload P
whose preconditions and approval gate pass, with force_resend false and
idempotency enabled: if a successful execution of P was marked with at least
one whole second of the idempotency window remaining (the retry-after value
truncates to whole seconds), the tool returns success=false with
duplicate_blocked=true and retry_after_sec ≥ 1 > 0, and does not invoke the
underlying Telegram call; hence only the first execution of P in that range
can return success. -/
theorem claim_C2 (cfg : ActionsConfig) (st : ActionsState)
    (group messageText confirmationText approvalCode newCode : String)
    (confirm sendOk : Bool) (now t : ℚ)
    (hpre : checkActionPreconditions cfg group false confirm confirmationText
      = (true, none))
    (htext : pyStrip messageText ≠ "")
    (hlen : (pyStrip messageText).length ≤ cfg.maxMessageLen)
    (hgate : (approvalGate cfg st.approvals (sendMessageActionHash group messageText)
      false approvalCode now newCode).1.1 = true)
    (hidem : cfg.idempotencyEnabled = true)
    (hnodup : (st.idem.map Prod.fst).Nodup)
    (hlast : st.idem.lookup (sendMessageActionHash group messageText) = some t)
    (hwin : 1 ≤ cfg.idempotencyWindowSec - (now - t)) :
    (tgSendMessage cfg st group messageText false confirm confirmationText
      approvalCode false now newCode sendOk).1.success = false ∧
    (tgSendMessage cfg st group messageText false confirm confirmationText
      approvalCode false now newCode sendOk).1.duplicateBlocked = true ∧
    1 ≤ (tgSendMessage cfg st group messageText false confirm confirmationText
      approvalCode false now newCode sendOk).1.retryAfterSec ∧
    (tgSendMessage cfg st group messageText false confirm confirmationText
      approvalCode false now newCode sendOk).1.telegramInvoked = false := by
  have hcrd := checkRecentDuplicate_hit cfg.idempotencyWindowSec st.idem
    (sendMessageActionHash group messageText) now t hnodup hlast hwin
  rcases hg : approvalGate cfg st.approvals (sendMessageActionHash group messageText)
      false approvalCode now newCode with ⟨⟨ok, err, meta⟩, approvals'⟩
  rw [hg] at hgate
  simp only at hgate
  subst hgate
  simp only [tgSendMessage, hpre, if_neg htext, if_neg (not_lt.mpr hlen), hg,
    Bool.false_eq_true, if_false, hidem, hcrd.1, if_true]
  exact ⟨trivial, trivial, hcrd.2, trivial⟩

/-- Concrete action policy used by pipeline witnesses: startup safe, actions
enabled, allowlist ["grp"], phrase "approve" (min 6), approval codes and
idempotency (24h window) required, message cap 2000. -/
def cfgA : ActionsConfig :=
  ⟨none, true, true, ["grp"], true, 6, "approve", true, 1800, true, 86400, 2000⟩

/-- Action hash of sending "hello" to group "grp". -/
def hashA : String := sendMessageActionHash "grp" "hello"

/-- Concrete pipeline state: one approval OK1 for hashA expiring at 90000,
and hashA marked executed at time 40. -/
def stA : ActionsState := ⟨[("OK1", ⟨hashA, 90000⟩)], [(hashA, 40)]⟩

theorem cfgA_pre : checkActionPreconditions cfgA "grp" false true "approve"
    = (true, none) := by decide

theorem stA_gate_ok (now : ℚ) (hlt : now < 90000) :
    approvalGate cfgA stA.approvals hashA false "OK1" now "NEW" =
      ((true, none, none), []) := by
  have hfound : (trimApprovals stA.approvals now).lookup "OK1" =
      some ⟨hashA, 90000⟩ :=
    lookup_trimApprovals stA.approvals "OK1" ⟨hashA, 90000⟩ now
      (by simp [stA]) (by simp [stA, List.lookup]) hlt
  have htrim : trimApprovals stA.approvals now = [("OK1", ⟨hashA, 90000⟩)] := by
    simp only [stA, trimApprovals, List.filter]
    rw [decide_eq_true hlt]
  rw [approvalGate]
  simp only [cfgA, Bool.not_true, Bool.false_eq_true, if_false]
  rw [consumeApproval]
  simp only [show pyStrip "OK1" = "OK1" from by decide, hfound]
  rw [if_neg (by decide : ¬ ("OK1" : String) = "")]
  simp only [ne_eq, not_true_eq_false, if_neg, if_false, htrim]
  simp [List.eraseP_cons]

/-- Witness for C2 at the concrete configuration: hashA marked at time 40,
checked at time 50 inside the 24h window. -/
theorem claim_C2_witness :
    (checkActionPreconditions cfgA "grp" false true "approve" = (true, none)) ∧
    (pyStrip "hello" ≠ "") ∧
    ((pyStrip "hello").length ≤ cfgA.maxMessageLen) ∧
    ((approvalGate cfgA stA.approvals (sendMessageActionHash "grp" "hello")
      false "OK1" 50 "NEW").1.1 = true) ∧
    (cfgA.idempotencyEnabled = true) ∧
    ((stA.idem.map Prod.fst).Nodup) ∧
    (stA.idem.lookup (sendMessageActionHash "grp" "hello") = some 40) ∧
    ((1 : ℚ) ≤ cfgA.idempotencyWindowSec - (50 - 40)) ∧
    ((tgSendMessage cfgA stA "grp" "hello" false true "approve" "OK1" false 50
        "NEW" true).1.success = false ∧
     (tgSendMessage cfgA stA "grp" "hello" false true "approve" "OK1" false 50
        "NEW" true).1.duplicateBlocked = true ∧
     1 ≤ (tgSendMessage cfgA stA "grp" "hello" false true "approve" "OK1" false 50
        "NEW" true).1.retryAfterSec ∧
     (tgSendMessage cfgA stA "grp" "hello" false true "approve" "OK1" false 50
        "NEW" true).1.telegramInvoked = false) := by
  have hpre := cfgA_pre
  have htext : pyStrip "hello" ≠ "" := by decide
  have hlen : (pyStrip "hello").length ≤ cfgA.maxMessageLen := by decide
  have hgate : (approvalGate cfgA stA.approvals (sendMessageActionHash "grp" "hello")
      false "OK1" 50 "NEW").1.1 = true := by
    rw [show sendMessageActionHash "grp" "hello" = hashA from rfl,
      stA_gate_ok 50 (by norm_num)]
  have hidem : cfgA.idempotencyEnabled = true := rfl
  have hnodup : (stA.idem.map Prod.fst).Nodup := by simp [stA]
  have hlast : stA.idem.lookup (sendMessageActionHash "grp" "hello") = some 40 := by
    simp [stA, hashA, List.lookup]
  have hwin : (1 : ℚ) ≤ cfgA.idempotencyWindowSec - (50 - 40) := by
    simp only [cfgA]
    norm_num
  exact ⟨hpre, htext, hlen, hgate, hidem, hnodup, hlast, hwin,
    claim_C2 cfgA stA "grp" "hello" "approve" "OK1" "NEW" true true 50 40
      hpre htext hlen hgate hidem hnodup hlast hwin⟩

/-- C2 counterexample. hashA was marked executed at time 40; an identical
execute at time 86440 — exactly the 86400s window boundary, still within the
window by the active-while `now − last ≤ window` rule the store itself uses
for trimming — is NOT blocked: the truncated retry-after is 0, the underlying
Telegram call is invoked and the tool returns success, contradicting the
claim that every within-window repeat returns duplicate_blocked with
retry_after_sec > 0. -/
theorem claim_C2_counterexample :
    ((86440 : ℚ) - 40 ≤ cfgA.idempotencyWindowSec) ∧
    (stA.idem.lookup (sendMessageActionHash "grp" "hello") = some 40) ∧
    ((tgSendMessage cfgA stA "grp" "hello" false true "approve" "OK1" false 86440
        "NEW" true).1.success = true ∧
     (tgSendMessage cfgA stA "grp" "hello" false true "approve" "OK1" false 86440
        "NEW" true).1.duplicateBlocked = false ∧
     (tgSendMessage cfgA stA "grp" "hello" false true "approve" "OK1" false 86440
        "NEW" true).1.telegramInvoked = true) := by
  refine ⟨by simp only [cfgA]; norm_num, by simp [stA, hashA, List.lookup], ?_⟩
  have hgate := stA_gate_ok 86440 (by norm_num)
  have hfilter : stA.idem.filter
      (fun kv => decide (86440 - kv.2 ≤ cfgA.idempotencyWindowSec)) = stA.idem := by
    simp only [stA, cfgA, List.filter]
    rw [decide_eq_true (by norm_num : (86440 : ℚ) - 40 ≤ 86400)]
  have hlook : stA.idem.lookup hashA = some 40 := by simp [stA, List.lookup]
  have hcrd : checkRecentDuplicate cfgA.idempotencyEnabled cfgA.idempotencyWindowSec
      stA.idem hashA 86440 = ((false, 0), stA.idem) := by
    rw [checkRecentDuplicate]
    simp only [show cfgA.idempotencyEnabled = true from rfl, Bool.not_true,
      Bool.false_eq_true, if_false, hfilter, hlook]
    have h0 : max (0 : ℚ) (cfgA.idempotencyWindowSec - (86440 - 40)) = 0 := by
      simp only [cfgA]
      norm_num
    rw [h0]
    norm_num
  have hpre := cfgA_pre
  simp only [tgSendMessage, hpre,
    if_neg (by decide : ¬ pyStrip "hello" = ""),
    if_neg (by decide : ¬ (pyStrip "hello").length > cfgA.maxMessageLen),
    show sendMessageActionHash "grp" "hello" = hashA from rfl, hgate,
    Bool.false_eq_true, if_false, hcrd, if_true]
  exact ⟨trivial, trivial, trivial⟩

/-- C8. For every non-dry-run send-message execution that passes the
preconditions and presents a valid one-time code C matching the payload hash:
the approval gate removes C from the approvals store before the idempotency
check and before the Telegram send, so whatever happens next — a
duplicate_blocked response (no send performed), a failed send, or a
successful send — the returned approvals state no longer contains C; the
store is never restored on error. -/
theorem claim_C8 (cfg : ActionsConfig) (st : ActionsState)
    (group messageText confirmationText C newCode : String)
    (confirm forceResend sendOk : Bool) (now : ℚ) (item : ApprovalItem)
    (hpre : checkActionPreconditions cfg group false confirm confirmationText
      = (true, none))
    (htext : pyStrip messageText ≠ "")
    (hlen : (pyStrip messageText).length ≤ cfg.maxMessageLen)
    (hreq : cfg.requireApprovalCode = true)
    (hnodupA : (st.approvals.map Prod.fst).Nodup)
    (htrimC : pyStrip C = C) (hneC : C ≠ "")
    (hlookC : st.approvals.lookup C = some item)
    (hexp : now < item.expiresAt)
    (hdig : item.digest = sendMessageActionHash group messageText) :
    ((tgSendMessage cfg st group messageText false confirm confirmationText C
        forceResend now newCode sendOk).2.approvals.lookup C = none) ∧
    ((tgSendMessage cfg st group messageText false confirm confirmationText C
        forceResend now newCode sendOk).1.duplicateBlocked = true →
      (tgSendMessage cfg st group messageText false confirm confirmationText C
        forceResend now newCode sendOk).1.telegramInvoked = false) ∧
    ((tgSendMessage cfg st group messageText false confirm confirmationText C
        forceResend now newCode sendOk).1.duplicateBlocked = false →
      (tgSendMessage cfg st group messageText false confirm confirmationText C
        forceResend now newCode sendOk).1.telegramInvoked = true ∧
      (sendOk = false →
        (tgSendMessage cfg st group messageText false confirm confirmationText C
          forceResend now newCode sendOk).1.success = false)) := by
  have hfound := lookup_trimApprovals st.approvals C item now hnodupA hlookC hexp
  have hnodupT : ((trimApprovals st.approvals now).map Prod.fst).Nodup :=
    nodup_keys_filter _ st.approvals hnodupA
  have herase : ((trimApprovals st.approvals now).eraseP
      (fun kv => kv.1 == C)).lookup C = none :=
    lookup_eraseP_key C _ hnodupT
  have hgate : approvalGate cfg st.approvals
      (sendMessageActionHash group messageText) false C now newCode =
      ((true, none, none),
       (trimApprovals st.approvals now).eraseP (fun kv => kv.1 == C)) := by
    rw [approvalGate]
    simp only [hreq, Bool.not_true, Bool.false_eq_true, if_false]
    rw [consumeApproval]
    simp only [htrimC, if_neg hneC, hfound, hdig, ne_eq, not_true_eq_false,
      if_neg, if_false]
  simp only [tgSendMessage, hpre, if_neg htext, if_neg (not_lt.mpr hlen), hgate,
    Bool.false_eq_true, if_false]
  by_cases hdb : (if forceResend then ((false, 0), st.idem)
      else checkRecentDuplicate cfg.idempotencyEnabled cfg.idempotencyWindowSec
        st.idem (sendMessageActionHash group messageText) now).1.1
  · simp only [hdb, if_true]
    exact ⟨herase, fun _ => trivial, fun hcontra => absurd hcontra (by simp)⟩
  · simp only [Bool.not_eq_true] at hdb
    simp only [hdb, Bool.false_eq_true, if_false]
    by_cases hso : sendOk
    · simp only [hso, if_true]
      exact ⟨herase, by simp, fun _ => ⟨trivial, fun hc => absurd hc (by simp)⟩⟩
    · simp only [Bool.not_eq_true] at hso
      simp only [hso, Bool.false_eq_true, if_false]
      exact ⟨herase, by simp, fun _ => ⟨trivial, fun _ => trivial⟩⟩

/-- Witness for C8 at the concrete configuration: valid code OK1 for hashA,
executed at time 50 with a failing underlying send; the code is gone from the
returned approvals state. -/
theorem claim_C8_witness :
    (checkActionPreconditions cfgA "grp" false true "approve" = (true, none)) ∧
    (pyStrip "hello" ≠ "") ∧
    ((pyStrip "hello").length ≤ cfgA.maxMessageLen) ∧
    (cfgA.requireApprovalCode = true) ∧
    ((stA.approvals.map Prod.fst).Nodup) ∧
    (pyStrip "OK1" = "OK1") ∧ ("OK1" ≠ "") ∧
    (stA.approvals.lookup "OK1" = some ⟨hashA, 90000⟩) ∧
    ((50 : ℚ) < (⟨hashA, 90000⟩ : ApprovalItem).expiresAt) ∧
    ((⟨hashA, 90000⟩ : ApprovalItem).digest = sendMessageActionHash "grp" "hello") ∧
    ((tgSendMessage cfgA stA "grp" "hello" false true "approve" "OK1" false 50
        "NEW" false).2.approvals.lookup "OK1" = none) := by
  have hpre := cfgA_pre
  have htext : pyStrip "hello" ≠ "" := by decide
  have hlen : (pyStrip "hello").length ≤ cfgA.maxMessageLen := by decide
  have hreq : cfgA.requireApprovalCode = true := rfl
  have hnodupA : (stA.approvals.map Prod.fst).Nodup := by simp [stA]
  have htrimC : pyStrip "OK1" = "OK1" := by decide
  have hneC : ("OK1" : String) ≠ "" := by decide
  have hlookC : stA.approvals.lookup "OK1" = some ⟨hashA, 90000⟩ := by
    simp [stA, List.lookup]
  have hexp : (50 : ℚ) < (⟨hashA, 90000⟩ : ApprovalItem).expiresAt := by norm_num
  have hdig : (⟨hashA, 90000⟩ : ApprovalItem).digest
      = sendMessageActionHash "grp" "hello" := rfl
  exact ⟨hpre, htext, hlen, hreq, hnodupA, htrimC, hneC, hlookC, hexp, hdig,
    (claim_C8 cfgA stA "grp" "hello" "approve" "OK1" "NEW" true false false 50
      ⟨hashA, 90000⟩ hpre htext hlen hreq hnodupA htrimC hneC hlookC hexp hdig).1⟩

/-! ## get_messages iteration and smart_pause
(tganalytics.domain.groups.GroupManager.get_messages, infra.limiter.smart_pause) -/

/-- History message as the iteration reads it: its text (empty when the
message field is absent) and whether it carries media. -/
structure TLMessage where
  text : String
  hasMedia : Bool
deriving DecidableEq

/-- smart_pause: seconds slept for the given operation type and count. -/
def smartPauseSleep (operationType : String) (count : Nat) : ℚ :=
  if operationType = "participants" then
    (if 0 < count ∧ count % 5000 = 0 then 1 else 0)
  else if operationType = "dm_batch" then
    (if 0 < count ∧ count % 20 = 0 then 60 else 0)
  else if operationType = "join_batch" then
    (if 0 < count then 3 else 0)
  else 0

/-- fetch_messages_safe loop body: skip messages with neither text nor media,
emit the rest, call smart_pause("participants", count) after every 1000
emitted messages, and stop once a nonzero limit is reached (checked after the
pause call). Returns the emitted messages and the pause calls as
(count, slept seconds). -/
def fetchMessagesGo (limit : Option Nat) :
    List TLMessage → Nat → List TLMessage × List (Nat × ℚ)
  | [], _ => ([], [])
  | m :: rest, count =>
    if m.text = "" ∧ m.hasMedia = false then fetchMessagesGo limit rest count
    else
      let count' := count + 1
      let pauses := if count' % 1000 = 0 then
        [(count', smartPauseSleep "participants" count')] else []
      let stop := match limit with
        | some l => decide (l ≠ 0) && decide (l ≤ count')
        | none => false
      if stop then ([m], pauses)
      else
        let r := fetchMessagesGo limit rest count'
        (m :: r.1, pauses ++ r.2)

/-- GroupManager.get_messages iteration over the fetched history. -/
def getMessages (limit : Option Nat) (msgs : List TLMessage) :
    List TLMessage × List (Nat × ℚ) :=
  fetchMessagesGo limit msgs 0

/-- Message is emitted: it has text or media. -/
def keepMsg (m : TLMessage) : Bool := !(decide (m.text = "") && !m.hasMedia)

/-- Effective cap left given the limit and messages already emitted; a zero
or absent limit never stops the loop. -/
def remCap (limit : Option Nat) (count : Nat) : Option Nat :=
  match limit with
  | none => none
  | some l => if l = 0 then none else some (l - count)

/-- Optional truncation. -/
def truncOpt (cap : Option Nat) (l : List TLMessage) : List TLMessage :=
  match cap with
  | none => l
  | some k => l.take k

/-- Pause calls emitted for n messages: one call at every count that is a
positive multiple of 1000, sleeping per smart_pause (nonzero only at
multiples of 5000 for the participants operation type). -/
def pauseSchedule (first n : Nat) : List (Nat × ℚ) :=
  ((List.range' first n).filter (fun c => c % 1000 == 0)).map
    (fun c => (c, smartPauseSleep "participants" c))

theorem pauseSchedule_zero (first : Nat) : pauseSchedule first 0 = [] := rfl

theorem pauseSchedule_succ (first n : Nat) :
    pauseSchedule first (n + 1) =
      (if first % 1000 = 0 then [(first, smartPauseSleep "participants" first)]
       else []) ++ pauseSchedule (first + 1) n := by
  unfold pauseSchedule
  rw [List.range'_succ, List.filter_cons]
  by_cases h : first % 1000 = 0 <;> simp [h]

theorem keepMsg_false_iff (m : TLMessage) :
    keepMsg m = false ↔ (m.text = "" ∧ m.hasMedia = false) := by
  unfold keepMsg
  cases hm : m.hasMedia <;> by_cases ht : m.text = "" <;> simp [ht, hm]

theorem fetchMessagesGo_spec (limit : Option Nat) :
    ∀ (msgs : List TLMessage) (count : Nat),
    (∀ k, remCap limit count = some k → 0 < k) →
    (fetchMessagesGo limit msgs count).1 =
      truncOpt (remCap limit count) (msgs.filter keepMsg) ∧
    (fetchMessagesGo limit msgs count).2 =
      pauseSchedule (count + 1) (fetchMessagesGo limit msgs count).1.length
  | [], count, hcap => by
    constructor
    · cases hc : remCap limit count with
      | none => simp [fetchMessagesGo, truncOpt]
      | some k => simp [fetchMessagesGo, truncOpt]
    · simp [fetchMessagesGo, pauseSchedule_zero]
  | m :: rest, count, hcap => by
    by_cases hskip : m.text = "" ∧ m.hasMedia = false
    · have hk : keepMsg m = false := (keepMsg_false_iff m).mpr hskip
      have ih := fetchMessagesGo_spec limit rest count hcap
      rw [fetchMessagesGo, if_pos hskip]
      rw [List.filter_cons, hk]
      simpa using ih
    · have hk : keepMsg m = true := by
        cases h : keepMsg m with
        | true => rfl
        | false => exact absurd ((keepMsg_false_iff m).mp h) hskip
      rw [fetchMessagesGo, if_neg hskip]
      rw [List.filter_cons, hk]
      simp only [if_true]
      cases limit with
      | none =>
        have ih := fetchMessagesGo_spec none rest (count + 1)
          (fun k hk => by simp [remCap] at hk)
        have h1 : (fetchMessagesGo none rest (count + 1)).1
            = List.filter keepMsg rest := ih.1
        have h2 := ih.2
        rw [h1] at h2
        simp only [Bool.false_eq_true, if_false, h1, h2, List.length_cons]
        refine ⟨rfl, ?_⟩
        rw [pauseSchedule_succ]
      | some l =>
        by_cases hl0 : l = 0
        · subst hl0
          have ih := fetchMessagesGo_spec (some 0) rest (count + 1)
            (fun k hk => by simp [remCap] at hk)
          have h1 : (fetchMessagesGo (some 0) rest (count + 1)).1
              = List.filter keepMsg rest := ih.1
          have h2 := ih.2
          rw [h1] at h2
          have hstopb : (decide ((0 : Nat) ≠ 0) && decide (0 ≤ count + 1)) = false := by
            simp
          simp only [hstopb, Bool.false_eq_true, if_false, h1, h2, List.length_cons]
          refine ⟨rfl, ?_⟩
          rw [pauseSchedule_succ]
        · have hlt : count < l := by
            have := hcap (l - count) (by simp [remCap, hl0])
            omega
          by_cases hstop : l ≤ count + 1
          · have hstopb : (decide (l ≠ 0) && decide (l ≤ count + 1)) = true := by
              simp [hl0, hstop]
            have hl1 : l - count = 1 := by omega
            rw [if_pos hstopb]
            constructor
            · simp [truncOpt, remCap, hl0, hl1]
            · simp only [List.length_singleton]
              rw [pauseSchedule_succ, pauseSchedule_zero, List.append_nil]
          · have hstopb : (decide (l ≠ 0) && decide (l ≤ count + 1)) = false := by
              have hd : decide (l ≤ count + 1) = false := decide_eq_false hstop
              rw [hd, Bool.and_false]
            have ih := fetchMessagesGo_spec (some l) rest (count + 1)
              (fun k hk => by
                have hrc : remCap (some l) (count + 1) = some (l - (count + 1)) := by
                  simp [remCap, hl0]
                rw [hrc] at hk
                have hke : l - (count + 1) = k := Option.some.inj hk
                omega)
            have h1 : (fetchMessagesGo (some l) rest (count + 1)).1
                = List.take (l - (count + 1)) (List.filter keepMsg rest) := by
              have hrc : remCap (some l) (count + 1) = some (l - (count + 1)) := by
                simp [remCap, hl0]
              rw [ih.1, hrc]
              rfl
            have h2 := ih.2
            rw [h1] at h2
            simp only [hstopb, Bool.false_eq_true, if_false, h1, h2, List.length_cons]
            constructor
            · have hrc0 : remCap (some l) count = some (l - count) := by
                simp [remCap, hl0]
              rw [hrc0]
              show m :: List.take (l - (count + 1)) (List.filter keepMsg rest)
                = List.take (l - count) (m :: List.filter keepMsg rest)
              have hlc : l - count = (l - (count + 1)) + 1 := by omega
              rw [hlc, List.take_succ_cons]
            · rw [pauseSchedule_succ]

/-- C10. For the messages operation: iterating the history it skips exactly
the messages with neither text nor media (the emitted list is the kept
messages, truncated by a nonzero limit), and it emits a smart_pause call
after every 1000 emitted messages — the call sleeps only at multiples of
5000 for the participants operation type, per smart_pause. -/
theorem claim_C10 (limit : Option Nat) (msgs : List TLMessage) :
    (getMessages limit msgs).1 = truncOpt (remCap limit 0) (msgs.filter keepMsg) ∧
    (getMessages limit msgs).2 =
      pauseSchedule 1 (getMessages limit msgs).1.length := by
  have h := fetchMessagesGo_spec limit msgs 0 (fun k hk => by
    cases limit with
    | none => simp [remCap] at hk
    | some l =>
      by_cases hl : l = 0
      · simp [remCap, hl] at hk
      · simp only [remCap, if_neg hl, Option.some.injEq] at hk
        omega)
  exact h

/-! ## Add-member batch engine (mcp_server_actions.tg_run_add_member_batch) -/

/-- One batch action entry. -/
structure BatchAction where
  group : String
  actionHash : String
  status : String
  attempts : Nat
  lastError : Option String
  lastRunTs : Option Int
deriving DecidableEq

/-- Batch record fields read and written by the run tool. The integer
timestamp fields default to 0 where the source reads `or 0`. -/
structure Batch where
  id : String
  status : String
  approved : Bool
  approvedUntilTs : Int
  expiresAtTs : Int
  user : String
  runLockOwner : Option String
  runLockUntilTs : Int
  actions : List BatchAction
  lastError : Option String
  lastRunTs : Option Int
  completedAtTs : Option Int
deriving DecidableEq

/-- Outcome of one underlying add_member_to_group call. -/
inductive AddMemberResult where
  | ok (alreadyMember : Bool)
  | err (message : String)

/-- The rights-error needle compared against the lowered error text. -/
def blockedRightsNeedle : String := "you can" ++ sq ++ "t write in this chat"

/-- _acquire_batch_run_lock on the batch record: blocked when a different
live owner holds the lease, else take the lease. -/
def acquireBatchRunLock (owner : String) (leaseSec : Int) (batch : Batch)
    (now : Int) : (Bool × Option String) × Batch :=
  let lockedBy := batch.runLockOwner.getD ""
  if batch.runLockUntilTs > now ∧ lockedBy ≠ "" ∧ lockedBy ≠ owner then
    ((false, some ("batch is already running by another worker until "
      ++ toString batch.runLockUntilTs
      ++ "; retry later or after lock lease expires")), batch)
  else
    ((true, none),
     { batch with
       runLockOwner := some owner, runLockUntilTs := now + leaseSec })

/-- _release_batch_run_lock: clear the lease unless a different owner holds
it. -/
def releaseBatchRunLock (owner : String) (batch : Batch) (now : Int) : Batch :=
  if batch.runLockOwner.getD "" ≠ "" ∧ batch.runLockOwner.getD "" ≠ owner then
    batch
  else { batch with runLockOwner := none, runLockUntilTs := now }

/-- Output of the pending-actions loop. -/
structure LoopOut where
  actions : List BatchAction
  processed : Nat
  callIdx : Nat
  stoppedReason : Option String
  pausedStatus : Option String
  loopLastError : Option String
  marked : List String
deriving DecidableEq

/-- The per-action loop of tg_run_add_member_batch: process up to max_actions
pending entries in order; re-check the allowlist (blocked_policy on failure,
without an underlying call); invoke add-member; on success mark success or
already_member (recording the idempotency digest for real additions); a
"join quota exceeded" error pauses the batch and stops the loop leaving the
failing action pending; a rights error marks blocked_rights; other errors
mark failed. res gives the result of the i-th underlying call. -/
def runBatchLoop (cfg : ActionsConfig) (now : Int) (maxActions : Int)
    (res : Nat → AddMemberResult) : List BatchAction → Nat → Nat → LoopOut
  | [], processed, callIdx => ⟨[], processed, callIdx, none, none, none, []⟩
  | a :: rest, processed, callIdx =>
    if (processed : Int) ≥ maxActions then
      ⟨a :: rest, processed, callIdx, none, none, none, []⟩
    else if a.status ≠ "pending" then
      let r := runBatchLoop cfg now maxActions res rest processed callIdx
      { r with actions := a :: r.actions }
    else
      match checkTargetAllowed cfg a.group with
      | (false, err) =>
        let a' := { a with
          status := "blocked_policy", lastError := err, lastRunTs := some now }
        let r := runBatchLoop cfg now maxActions res rest (processed + 1) callIdx
        { r with actions := a' :: r.actions }
      | (true, _) =>
        match res callIdx with
        | .ok already =>
          let a' := { a with
            status := if already then "already_member" else "success",
            attempts := a.attempts + 1, lastRunTs := some now, lastError := none }
          let r := runBatchLoop cfg now maxActions res rest (processed + 1)
            (callIdx + 1)
          { r with
            actions := a' :: r.actions,
            marked := if already then r.marked else a.actionHash :: r.marked }
        | .err msg =>
          let a' := { a with
            attempts := a.attempts + 1, lastRunTs := some now,
            lastError := some msg }
          if strContainsSub "join quota exceeded" (pyLower msg) then
            ⟨a' :: rest, processed, callIdx + 1, some "join_quota_exceeded",
             some "paused_quota", some msg, []⟩
          else
            let a'' := { a' with
            status := if strContainsSub blockedRightsNeedle (pyLower msg) then
              "blocked_rights" else "failed" }
            let r := runBatchLoop cfg now maxActions res rest (processed + 1)
              (callIdx + 1)
            { r with actions := a'' :: r.actions }

/-- Response of the run tool, reduced to the claimed fields; lockAcquired
records whether the run lock was taken (and so must be released). -/
structure RunOut where
  success : Bool
  error : Option String
  message : Option String
  processedNow : Nat
  stoppedReason : Option String
  lockAcquired : Bool
deriving DecidableEq

/-- Body of tg_run_add_member_batch once the run lock is held: the entry
checks (expired, not approved, approval lease elapsed, already completed),
the action loop, status roll-up, and — mirroring the finally clause — the
lock release applied on every exit. -/
def runBatchBody (cfg : ActionsConfig) (owner : String) (b : Batch)
    (now maxActions : Int) (res : Nat → AddMemberResult) : RunOut × Batch :=
  let body : RunOut × Batch :=
    if b.expiresAtTs ≤ now then
      (⟨false, some "batch is expired", none, 0, none, true⟩,
       { b with
         status := "expired", runLockOwner := none, runLockUntilTs := now })
    else if !b.approved then
      (⟨false, some "batch is not approved; call tg_approve_batch first",
        none, 0, none, true⟩,
       { b with runLockOwner := none, runLockUntilTs := now })
    else if b.approvedUntilTs ≤ now then
      (⟨false, some "batch approval expired; call tg_approve_batch again",
        none, 0, none, true⟩,
       { b with
         approved := false, status := "pending_approval",
         runLockOwner := none, runLockUntilTs := now })
    else if b.status = "completed" then
      (⟨true, none, some "batch already completed", 0, none, true⟩,
       { b with runLockOwner := none, runLockUntilTs := now })
    else
      let lo := runBatchLoop cfg now maxActions res b.actions 0 0
      let status₁ := lo.pausedStatus.getD "running"
      let pendingLeft := lo.actions.any (fun a => a.status == "pending")
      let status₂ := if status₁ = "running" then
        (if pendingLeft then "approved" else "completed") else status₁
      let completedAt := if status₂ = "completed" then some now
        else b.completedAtTs
      (⟨true, none, none, lo.processed, lo.stoppedReason, true⟩,
       { b with
         status := status₂, lastError := lo.loopLastError,
         actions := lo.actions, completedAtTs := completedAt,
         lastRunTs := some now, runLockOwner := none,
         runLockUntilTs := now })
  (body.1, releaseBatchRunLock owner body.2 now)

/-- tg_run_add_member_batch: startup and enabled gates, max_actions check,
lock acquisition, then the body under the lock. -/
def runAddMemberBatch (cfg : ActionsConfig) (owner : String) (runLeaseSec : Int)
    (batch : Batch) (now : Int) (maxActions : Int)
    (res : Nat → AddMemberResult) : RunOut × Batch :=
  if cfg.safeStartupBlockReason.isSome then
    (⟨false, cfg.safeStartupBlockReason, none, 0, none, false⟩, batch)
  else if !cfg.actionsEnabled then
    (⟨false, some "Actions are disabled. Set TG_ACTIONS_ENABLED=1.", none, 0,
      none, false⟩, batch)
  else if maxActions ≤ 0 then
    (⟨false, some "max_actions must be > 0", none, 0, none, false⟩, batch)
  else
    match acquireBatchRunLock owner runLeaseSec batch now with
    | ((false, lockError), b) =>
      (⟨false, some (lockError.getD "failed to acquire batch run lock"), none,
        0, none, false⟩, b)
    | ((true, _), b) => runBatchBody cfg owner b now maxActions res

/-- A quota stop of the action loop: the reason is join_quota_exceeded, the
batch status override is paused_quota, and the input splits as
pre ++ failing :: post where the failing action was pending, keeps status
pending (only attempts / last_error / last_run_ts change) and the suffix post
is returned untouched. -/
theorem runBatchLoop_quota (cfg : ActionsConfig) (now : Int) (maxA : Int)
    (res : Nat → AddMemberResult) (r : String) :
    ∀ (actions : List BatchAction) (processed callIdx : Nat),
    (runBatchLoop cfg now maxA res actions processed callIdx).stoppedReason
      = some r →
    r = "join_quota_exceeded" ∧
    (runBatchLoop cfg now maxA res actions processed callIdx).pausedStatus
      = some "paused_quota" ∧
    ∃ (pre : List BatchAction) (a : BatchAction) (msg : String)
      (post pre' : List BatchAction),
      actions = pre ++ a :: post ∧
      (runBatchLoop cfg now maxA res actions processed callIdx).actions =
        pre' ++ ({ a with
          attempts := a.attempts + 1, lastError := some msg,
          lastRunTs := some now } :: post) ∧
      a.status = "pending" ∧
      strContainsSub "join quota exceeded" (pyLower msg) = true ∧
      (runBatchLoop cfg now maxA res actions processed callIdx).loopLastError
        = some msg
  | [], processed, callIdx, h => by
    rw [runBatchLoop] at h
    exact absurd h (by simp)
  | a :: rest, processed, callIdx, h => by
    by_cases hmax : (processed : Int) ≥ maxA
    · have hloop : runBatchLoop cfg now maxA res (a :: rest) processed callIdx
          = ⟨a :: rest, processed, callIdx, none, none, none, []⟩ := by
        rw [runBatchLoop, if_pos hmax]
      rw [hloop] at h
      exact absurd h (by simp)
    · by_cases hst : a.status ≠ "pending"
      · have hloop : runBatchLoop cfg now maxA res (a :: rest) processed callIdx
            = (let rr := runBatchLoop cfg now maxA res rest processed callIdx
               ⟨a :: rr.actions, rr.processed, rr.callIdx, rr.stoppedReason,
                rr.pausedStatus, rr.loopLastError, rr.marked⟩ : LoopOut) := by
          rw [runBatchLoop, if_neg hmax, if_pos hst]
        rw [hloop] at h ⊢
        obtain ⟨hr, hps, pre, a₀, msg, post, pre', h₁, h₂, h₃, h₄, h₅⟩ :=
          runBatchLoop_quota cfg now maxA res r rest processed callIdx h
        refine ⟨hr, hps, a :: pre, a₀, msg, post, a :: pre', by simp [h₁], ?_,
          h₃, h₄, h₅⟩
        show a :: (runBatchLoop cfg now maxA res rest processed callIdx).actions
          = (a :: pre') ++ _
        rw [List.cons_append]
        exact congrArg (List.cons a) h₂
      · rcases hca : checkTargetAllowed cfg a.group with ⟨okA, errA⟩
        cases okA with
        | false =>
          have hloop : runBatchLoop cfg now maxA res (a :: rest) processed callIdx
              = (let rr := runBatchLoop cfg now maxA res rest (processed + 1) callIdx
                 ⟨{ a with
                    status := "blocked_policy", lastError := errA,
                    lastRunTs := some now } :: rr.actions,
                  rr.processed, rr.callIdx, rr.stoppedReason,
                  rr.pausedStatus, rr.loopLastError, rr.marked⟩ : LoopOut) := by
            rw [runBatchLoop, if_neg hmax, if_neg hst, hca]
          rw [hloop] at h ⊢
          obtain ⟨hr, hps, pre, a₀, msg, post, pre', h₁, h₂, h₃, h₄, h₅⟩ :=
            runBatchLoop_quota cfg now maxA res r rest (processed + 1) callIdx h
          refine ⟨hr, hps, a :: pre, a₀, msg, post,
            { a with
              status := "blocked_policy", lastError := errA,
              lastRunTs := some now } :: pre', by simp [h₁], ?_, h₃, h₄, h₅⟩
          show _ :: (runBatchLoop cfg now maxA res rest (processed + 1) callIdx).actions
            = (_ :: pre') ++ _
          rw [List.cons_append]
          exact congrArg (List.cons _) h₂
        | true =>
          rcases hres : res callIdx with already | msg₀
          · have hloop : runBatchLoop cfg now maxA res (a :: rest) processed callIdx
                = (let rr := runBatchLoop cfg now maxA res rest (processed + 1)
                    (callIdx + 1)
                   ⟨{ a with
                      status := if already then "already_member" else "success",
                      attempts := a.attempts + 1, lastRunTs := some now,
                      lastError := none } :: rr.actions,
                    rr.processed, rr.callIdx, rr.stoppedReason, rr.pausedStatus,
                    rr.loopLastError,
                    if already then rr.marked
                    else a.actionHash :: rr.marked⟩ : LoopOut) := by
              rw [runBatchLoop, if_neg hmax, if_neg hst, hca, hres]
            rw [hloop] at h ⊢
            obtain ⟨hr, hps, pre, a₀, msg, post, pre', h₁, h₂, h₃, h₄, h₅⟩ :=
              runBatchLoop_quota cfg now maxA res r rest (processed + 1)
                (callIdx + 1) h
            refine ⟨hr, hps, a :: pre, a₀, msg, post,
              { a with
                status := if already then "already_member" else "success",
                attempts := a.attempts + 1, lastRunTs := some now,
                lastError := none } :: pre', by simp [h₁], ?_, h₃, h₄, h₅⟩
            show _ :: (runBatchLoop cfg now maxA res rest (processed + 1)
                (callIdx + 1)).actions = (_ :: pre') ++ _
            rw [List.cons_append]
            exact congrArg (List.cons _) h₂
          · have hloop : runBatchLoop cfg now maxA res (a :: rest) processed callIdx
                = (if strContainsSub "join quota exceeded" (pyLower msg₀) = true then
                    (⟨{ a with
                        attempts := a.attempts + 1, lastError := some msg₀,
                        lastRunTs := some now } :: rest,
                      processed, callIdx + 1, some "join_quota_exceeded",
                      some "paused_quota", some msg₀, []⟩ : LoopOut)
                  else
                    (let rr := runBatchLoop cfg now maxA res rest (processed + 1)
                      (callIdx + 1)
                    ⟨{ a with
                       attempts := a.attempts + 1, lastError := some msg₀,
                       lastRunTs := some now,
                       status := if strContainsSub blockedRightsNeedle (pyLower msg₀)
                         then "blocked_rights" else "failed" } :: rr.actions,
                     rr.processed, rr.callIdx, rr.stoppedReason, rr.pausedStatus,
                     rr.loopLastError, rr.marked⟩)) := by
              rw [runBatchLoop, if_neg hmax, if_neg hst, hca, hres]
            rw [hloop] at h ⊢
            by_cases hqt : strContainsSub "join quota exceeded" (pyLower msg₀) = true
            · rw [if_pos hqt] at h ⊢
              have hr : r = "join_quota_exceeded" := (Option.some.inj h).symm
              refine ⟨hr, rfl, [], a, msg₀, rest, [], rfl, ?_,
                not_not.mp hst, hqt, rfl⟩
              show ({ a with
                attempts := a.attempts + 1, lastError := some msg₀,
                lastRunTs := some now } : BatchAction) :: rest = [] ++ _
              rw [List.nil_append]
            · rw [if_neg hqt] at h ⊢
              obtain ⟨hr, hps, pre, a₀, msg, post, pre', h₁, h₂, h₃, h₄, h₅⟩ :=
                runBatchLoop_quota cfg now maxA res r rest (processed + 1)
                  (callIdx + 1) h
              refine ⟨hr, hps, a :: pre, a₀, msg, post,
                ({ a with
                   attempts := a.attempts + 1, lastRunTs := some now,
                   lastError := some msg₀,
                   status := if strContainsSub blockedRightsNeedle (pyLower msg₀)
                     then "blocked_rights" else "failed" }) :: pre',
                by simp [h₁], ?_, h₃, h₄, h₅⟩
              show _ :: (runBatchLoop cfg now maxA res rest (processed + 1)
                  (callIdx + 1)).actions = (_ :: pre') ++ _
              rw [List.cons_append]
              exact congrArg (List.cons _) h₂

/-- Release applied to an already-cleared lease. -/
theorem releaseBatchRunLock_of_clear (owner : String) (bb : Batch) (now : Int)
    (hbb : bb.runLockOwner = none) :
    releaseBatchRunLock owner bb now =
      { bb with runLockOwner := none, runLockUntilTs := now } := by
  rw [releaseBatchRunLock, hbb]
  simp

/-- Every exit of the body (expired, not approved, lease elapsed, already
completed, normal finish) leaves the run lock owner cleared. -/
theorem runBatchBody_lock_cleared (cfg : ActionsConfig) (owner : String)
    (b : Batch) (now maxA : Int) (res : Nat → AddMemberResult) :
    (runBatchBody cfg owner b now maxA res).2.runLockOwner = none := by
  rw [runBatchBody]
  dsimp only
  rw [releaseBatchRunLock_of_clear]
  · split
    · rfl
    · split
      · rfl
      · split
        · rfl
        · split
          · rfl
          · rfl

/-- Quota pause of the body: the stop reason forces status paused_quota, the
last error is the quota message, and the actions split with the failing
pending action and the untouched suffix. -/
theorem runBatchBody_quota (cfg : ActionsConfig) (owner : String) (b : Batch)
    (now maxA : Int) (res : Nat → AddMemberResult) (r : String)
    (h : (runBatchBody cfg owner b now maxA res).1.stoppedReason = some r) :
    r = "join_quota_exceeded" ∧
    (runBatchBody cfg owner b now maxA res).2.status = "paused_quota" ∧
    ∃ (pre : List BatchAction) (a : BatchAction) (msg : String)
      (post pre' : List BatchAction),
      b.actions = pre ++ a :: post ∧
      (runBatchBody cfg owner b now maxA res).2.actions =
        pre' ++ ({ a with
          attempts := a.attempts + 1, lastError := some msg,
          lastRunTs := some now } :: post) ∧
      a.status = "pending" ∧
      strContainsSub "join quota exceeded" (pyLower msg) = true ∧
      (runBatchBody cfg owner b now maxA res).2.lastError = some msg := by
  rw [runBatchBody] at h ⊢
  by_cases h₁ : b.expiresAtTs ≤ now
  · rw [if_pos h₁] at h
    exact absurd h (by simp)
  · rw [if_neg h₁] at h ⊢
    by_cases h₂ : (!b.approved) = true
    · rw [if_pos h₂] at h
      exact absurd h (by simp)
    · rw [if_neg h₂] at h ⊢
      by_cases h₃ : b.approvedUntilTs ≤ now
      · rw [if_pos h₃] at h
        exact absurd h (by simp)
      · rw [if_neg h₃] at h ⊢
        by_cases h₄ : b.status = "completed"
        · rw [if_pos h₄] at h
          exact absurd h (by simp)
        · rw [if_neg h₄] at h ⊢
          obtain ⟨hr, hps, pre, a, msg, post, pre', e₁, e₂, e₃, e₄, e₅⟩ :=
            runBatchLoop_quota cfg now maxA res r b.actions 0 0 h
          refine ⟨hr, ?_, pre, a, msg, post, pre', e₁, ?_, e₃, e₄, ?_⟩
          · rw [releaseBatchRunLock_of_clear owner _ now rfl]
            show (if (runBatchLoop cfg now maxA res b.actions 0 0).pausedStatus.getD
                "running" = "running" then _ else _) = "paused_quota"
            rw [hps]
            simp
          · rw [releaseBatchRunLock_of_clear owner _ now rfl]
            exact e₂
          · rw [releaseBatchRunLock_of_clear owner _ now rfl]
            exact e₅

/-- C7. For every batch run: whenever the run lock was acquired, run_lock_owner
is cleared on the returned batch on every exit path (expired, not approved,
approval lease elapsed, already completed, or normal finish); the
finally-release also clears the lock from any state owned by the caller or
unowned, covering the exception path; and if an add-member call reported
"join quota exceeded" (the run output carries a stopped reason), the batch
status becomes paused_quota with stopped_reason join_quota_exceeded, the loop
stops with the failing action still pending (only attempts, last_error,
last_run_ts change on it) and every action after it untouched. -/
theorem claim_C7 (cfg : ActionsConfig) (owner : String) (runLeaseSec : Int)
    (batch : Batch) (now maxA : Int) (res : Nat → AddMemberResult) (r : String) :
    ((runAddMemberBatch cfg owner runLeaseSec batch now maxA res).1.lockAcquired
        = true →
      (runAddMemberBatch cfg owner runLeaseSec batch now maxA res).2.runLockOwner
        = none) ∧
    (∀ (b' : Batch) (now' : Int),
      b'.runLockOwner = none ∨ b'.runLockOwner = some "" ∨
        b'.runLockOwner = some owner →
      (releaseBatchRunLock owner b' now').runLockOwner = none) ∧
    ((runAddMemberBatch cfg owner runLeaseSec batch now maxA res).1.stoppedReason
        = some r →
      r = "join_quota_exceeded" ∧
      (runAddMemberBatch cfg owner runLeaseSec batch now maxA res).2.status
        = "paused_quota" ∧
      ∃ (pre : List BatchAction) (a : BatchAction) (msg : String)
        (post pre' : List BatchAction),
        batch.actions = pre ++ a :: post ∧
        (runAddMemberBatch cfg owner runLeaseSec batch now maxA res).2.actions =
          pre' ++ ({ a with
            attempts := a.attempts + 1, lastError := some msg,
            lastRunTs := some now } :: post) ∧
        a.status = "pending" ∧
        strContainsSub "join quota exceeded" (pyLower msg) = true ∧
        (runAddMemberBatch cfg owner runLeaseSec batch now maxA res).2.lastError
          = some msg) := by
  have hrelease : ∀ (b' : Batch) (now' : Int),
      b'.runLockOwner = none ∨ b'.runLockOwner = some "" ∨
        b'.runLockOwner = some owner →
      (releaseBatchRunLock owner b' now').runLockOwner = none := by
    intro b' now' hb'
    rcases hb' with hb' | hb' | hb' <;> rw [releaseBatchRunLock, hb'] <;> simp
  refine ⟨?_, hrelease, ?_⟩ <;>
  · by_cases hsafe : cfg.safeStartupBlockReason.isSome = true
    · have hrun : runAddMemberBatch cfg owner runLeaseSec batch now maxA res
          = (⟨false, cfg.safeStartupBlockReason, none, 0, none, false⟩, batch) := by
        rw [runAddMemberBatch, if_pos hsafe]
      rw [hrun]
      intro hx
      exact absurd hx (by simp)
    · by_cases henb : (!cfg.actionsEnabled) = true
      · have hrun : runAddMemberBatch cfg owner runLeaseSec batch now maxA res
            = (⟨false, some "Actions are disabled. Set TG_ACTIONS_ENABLED=1.",
               none, 0, none, false⟩, batch) := by
          rw [runAddMemberBatch, if_neg hsafe, if_pos henb]
        rw [hrun]
        intro hx
        exact absurd hx (by simp)
      · by_cases hqmax : maxA ≤ 0
        · have hrun : runAddMemberBatch cfg owner runLeaseSec batch now maxA res
              = (⟨false, some "max_actions must be > 0", none, 0, none, false⟩,
                 batch) := by
            rw [runAddMemberBatch, if_neg hsafe, if_neg henb, if_pos hqmax]
          rw [hrun]
          intro hx
          exact absurd hx (by simp)
        · by_cases hlock : batch.runLockUntilTs > now ∧
              (batch.runLockOwner.getD "") ≠ "" ∧
              (batch.runLockOwner.getD "") ≠ owner
          · have hrun : runAddMemberBatch cfg owner runLeaseSec batch now maxA res
                = (⟨false,
                    some ("batch is already running by another worker until "
                      ++ toString batch.runLockUntilTs
                      ++ "; retry later or after lock lease expires"),
                    none, 0, none, false⟩, batch) := by
              rw [runAddMemberBatch, if_neg hsafe, if_neg henb, if_neg hqmax,
                acquireBatchRunLock, if_pos hlock]
              rfl
            rw [hrun]
            intro hx
            exact absurd hx (by simp)
          · have hrun : runAddMemberBatch cfg owner runLeaseSec batch now maxA res
                = runBatchBody cfg owner
                    { batch with
                      runLockOwner := some owner,
                      runLockUntilTs := now + runLeaseSec } now maxA res := by
              rw [runAddMemberBatch, if_neg hsafe, if_neg henb, if_neg hqmax,
                acquireBatchRunLock, if_neg hlock]
            rw [hrun]
            intro hx
            first
            | exact runBatchBody_lock_cleared cfg owner _ now maxA res
            | exact runBatchBody_quota cfg owner _ now maxA res r hx

/-- Approved three-action batch on allowed targets, not expired at time 100. -/
def demoBatch : Batch :=
  ⟨"b1", "approved", true, 1000, 2000, "user1", none, 0,
   [⟨"grp", "h1", "pending", 0, none, none⟩,
    ⟨"grp", "h2", "pending", 0, none, none⟩,
    ⟨"grp", "h3", "pending", 0, none, none⟩], none, none, none⟩

/-- Underlying call results: first addition succeeds, the second hits the
join quota. -/
def demoRes : Nat → AddMemberResult :=
  fun i => if i = 0 then .ok false else .err "[SAFE] Join quota exceeded: 20/20"

/-- Witness for C7: running demoBatch pauses on the quota error with the lock
cleared. -/
theorem claim_C7_witness :
    ((runAddMemberBatch cfgA "srv:42" 1800 demoBatch 100 100 demoRes).1.lockAcquired
      = true) ∧
    ((runAddMemberBatch cfgA "srv:42" 1800 demoBatch 100 100 demoRes).1.stoppedReason
      = some "join_quota_exceeded") ∧
    ((runAddMemberBatch cfgA "srv:42" 1800 demoBatch 100 100 demoRes).2.runLockOwner
      = none) ∧
    ("join_quota_exceeded" = "join_quota_exceeded" ∧
     (runAddMemberBatch cfgA "srv:42" 1800 demoBatch 100 100 demoRes).2.status
       = "paused_quota" ∧
     ∃ (pre : List BatchAction) (a : BatchAction) (msg : String)
       (post pre' : List BatchAction),
       demoBatch.actions = pre ++ a :: post ∧
       (runAddMemberBatch cfgA "srv:42" 1800 demoBatch 100 100 demoRes).2.actions =
         pre' ++ ({ a with
           attempts := a.attempts + 1, lastError := some msg,
           lastRunTs := some 100 } :: post) ∧
       a.status = "pending" ∧
       strContainsSub "join quota exceeded" (pyLower msg) = true ∧
       (runAddMemberBatch cfgA "srv:42" 1800 demoBatch 100 100 demoRes).2.lastError
         = some msg) := by
  have h := claim_C7 cfgA "srv:42" 1800 demoBatch 100 100 demoRes
    "join_quota_exceeded"
  exact ⟨by decide, by decide, h.1 (by decide), h.2.2 (by decide)⟩

end TgMcp
